import Mathlib

/-!
Verification of the Todo Synchronization Engine of the `claudepilot`
repository against its natural-language specification.

The development shallowly embeds the TypeScript sources:
  * `src/todos/todoParser.ts`   — `TodoParser` (pure JSON-shape parser),
  * `src/todos/todoTreeProvider.ts` — `TodoWatcher.isSessionTodoFile`,
  * the `TodoManager` orchestrator (debounce timers, cache, sessions),
  * `src/services/hookServer.ts` — HTTP hook endpoint event typing,
  * `src/services/hookManager.ts` — settings merge (`installHooks`).

JavaScript runtime values produced by `JSON.parse` are modelled by the
inductive type `Json` (numbers as `Int`; the sources never do numeric
arithmetic on parsed values).  JavaScript property access on `null`
throws a `TypeError`; this is modelled by `Except Unit`.  `JSON.parse`
itself is a trusted library routine: file bytes are abstracted by their
parse result (`FileData.content j` for bytes parsing to `j`,
`FileData.invalid` for bytes on which `JSON.parse` throws).
-/

/-- A JavaScript value as produced by `JSON.parse`.  Objects are
duplicate-key-free association lists (duplicate keys are already folded
by `JSON.parse`, last occurrence winning). -/
inductive Json where
  | null
  | bool (b : Bool)
  | num (n : Int)
  | str (s : String)
  | arr (elems : List Json)
  | obj (fields : List (String × Json))
deriving Repr

/-- JavaScript truthiness of a defined value. -/
def truthy : Json → Bool
  | .null => false
  | .bool b => b
  | .num n => n != 0
  | .str s => !s.isEmpty
  | .arr _ => true
  | .obj _ => true

/-- Field lookup in an object's association list. -/
def lookupField : List (String × Json) → String → Option Json
  | [], _ => none
  | (k', v) :: rest, k => if k' = k then some v else lookupField rest k

/-- JavaScript property access `v[k]`: throws a `TypeError` when the
base is `null`, yields `undefined` (modelled `none`) on primitives and
arrays, and looks the key up on objects. -/
def jsField : Json → String → Except Unit (Option Json)
  | .null, _ => .error ()
  | .obj fs, k => .ok (lookupField fs k)
  | _, _ => .ok none

/-- First truthy value of a `a || b || ...` chain (absent properties are
`undefined`, which is falsy); `none` when every operand is falsy. -/
def jsFirstTruthy : List (Option Json) → Option Json
  | [] => none
  | some j :: rest => if truthy j then some j else jsFirstTruthy rest
  | none :: rest => jsFirstTruthy rest

mutual

/-- JavaScript `String(v)` coercion for `JSON.parse` values (plain
objects have no overridden `toString`). -/
def jsToString : Json → String
  | .null => "null"
  | .bool b => if b then "true" else "false"
  | .num n => toString n
  | .str s => s
  | .arr l => String.intercalate "," (jsArrElems l)
  | .obj _ => "[object Object]"

/-- `Array.prototype.join(',')` element conversions (`null` renders as
the empty string inside a join). -/
def jsArrElems : List Json → List String
  | [] => []
  | .null :: rest => "" :: jsArrElems rest
  | j :: rest => jsToString j :: jsArrElems rest

end

/-- `needle.isPrefixOf hay` reading: does `hay` contain `needle` as a
contiguous sublist?  Models JavaScript `String.prototype.includes`. -/
def hasSubList (needle : List Char) : List Char → Bool
  | [] => needle.isEmpty
  | c :: rest => needle.isPrefixOf (c :: rest) || hasSubList needle rest

/-- JavaScript `hay.includes(sub)`. -/
def strIncludes (hay sub : String) : Bool :=
  hasSubList sub.data hay.data

/-- JavaScript `s.endsWith(suffix)` (case-sensitive). -/
def strEndsWith (s suffix : String) : Bool :=
  suffix.data.isSuffixOf s.data

/-- JavaScript `s.toLowerCase()` (character-wise lowering). -/
def strToLower (s : String) : String :=
  String.mk (s.data.map Char.toLower)

/-! ## TodoParser (src/todos/todoParser.ts) -/

/-- Status enum of a todo item. -/
inductive TStatus where
  | pending
  | in_progress
  | completed
deriving Repr, DecidableEq

/-- Priority enum of a todo item. -/
inductive TPriority where
  | low
  | medium
  | high
deriving Repr, DecidableEq

/-- `TodoItem` of `todoParser.ts`.  The TypeScript interface declares
`content : string`, but at runtime `parseTodoItem` stores whatever
truthy value the `content|text|description|title|name` chain yields, so
the field is modelled as `Json` (renderings apply `String(...)`). -/
structure TodoItem where
  id : String
  content : Json
  status : TStatus
  priority : TPriority
deriving Repr

/-- `TodoList` of `todoParser.ts` (`lastUpdated` is the file's mtime). -/
structure TodoList where
  sessionId : String
  todos : List TodoItem
  filePath : String
  lastUpdated : Nat
deriving Repr

/-- Membership in the character class `[a-f0-9-]` under the `/i` flag. -/
def hexDashChar (c : Char) : Bool :=
  let d := c.toLower
  (decide ('a' ≤ d) && decide (d ≤ 'f')) ||
  (decide ('0' ≤ d) && decide (d ≤ '9')) ||
  (d == '-')

/-- Case-insensitive literal prefix test; the pattern is given in lower
case, the input keeps its original case. -/
def ciStartsWith : List Char → List Char → Bool
  | [], _ => true
  | _ :: _, [] => false
  | p :: ps, c :: cs => (p == c.toLower) && ciStartsWith ps cs

/-- Case-insensitive literal suffix test (pattern in lower case). -/
def ciEndsWith (pat l : List Char) : Bool :=
  ciStartsWith pat.reverse l.reverse

/-- Leftmost match of the regex fragment `pre([a-f0-9-]+)` against a
body that the anchored tail has already been stripped from: at the
first position where the literal `pre` matches (case-insensitively) and
everything after it is a nonempty run of class characters, the capture
is that run (original case preserved, as JavaScript captures are). -/
def findCapture (pre : List Char) : List Char → Option (List Char)
  | [] => none
  | c :: cs =>
    if ciStartsWith pre (c :: cs) then
      let rest := (c :: cs).drop pre.length
      if !rest.isEmpty && rest.all hexDashChar then some rest
      else findCapture pre cs
    else findCapture pre cs

/-- JavaScript `filename.match(/pre([a-f0-9-]+)suf$/i)`, returning the
first capture group.  Because the pattern is end-anchored and the class
`[a-f0-9-]` contains no character of `.json`, the capture region is
exactly the text between an occurrence of `pre` and the final literal
`suf`; greedy-plus backtracking adds nothing beyond that. -/
def matchPattern (pre suf l : List Char) : Option (List Char) :=
  if ciEndsWith suf l then findCapture pre (l.take (l.length - suf.length))
  else none

/-- `path.basename` for `/`-separated paths (the watcher only ever
hands basenames under one fixed directory to the parser). -/
def basenameOf (p : String) : String :=
  String.mk ((p.data.reverse.takeWhile (fun c => c ≠ '/')).reverse)

/-- `TodoParser.extractSessionId`: tries the four filename patterns
`todos-<id>.json`, `<id>-todos.json`, `todos_<id>.json`, `<id>.json`
in order (all `/i`), first match winning. -/
def extractSessionId (filePath : String) : Option String :=
  let filename := (basenameOf filePath).data
  match matchPattern "todos-".data ".json".data filename with
  | some cap => some (String.mk cap)
  | none =>
    match matchPattern [] "-todos.json".data filename with
    | some cap => some (String.mk cap)
    | none =>
      match matchPattern "todos_".data ".json".data filename with
      | some cap => some (String.mk cap)
      | none =>
        match matchPattern [] ".json".data filename with
        | some cap => some (String.mk cap)
        | none => none

/-- `this.extractSessionId(filePath) || 'unknown'` as computed at the
top of `validateAndTransform` (JavaScript `||`, so an empty capture
would also fall back). -/
def sessionIdOfPath (filePath : String) : String :=
  match extractSessionId filePath with
  | some s => if s.isEmpty then "unknown" else s
  | none => "unknown"

/-- Default todo used by `parseTodoItem`. -/
def defaultTodo (index : Nat) : TodoItem :=
  { id := toString index, content := .str "", status := .pending,
    priority := .medium }

/-- Status inference of `parseTodoItem` from the lower-cased raw
status string. -/
def inferStatus (s : String) : TStatus :=
  if strIncludes s "progress" || strIncludes s "active" then .in_progress
  else if strIncludes s "complete" || strIncludes s "done" ||
      strIncludes s "finish" then .completed
  else .pending

/-- Priority inference of `parseTodoItem` from the lower-cased raw
priority string. -/
def inferPriority (s : String) : TPriority :=
  if strIncludes s "high" || strIncludes s "urgent" || s == "3" then .high
  else if strIncludes s "low" || s == "1" then .low
  else .medium

/-- `TodoParser.parseTodoItem`.  A string item becomes the default todo
with that content; non-object / null items give the bare default; for
an object (or array) the id/content/status/priority chains are applied.
`(x || '').toLowerCase()` throws a `TypeError` when the chain yields a
truthy non-string, modelled by `.error ()`. -/
def parseTodoItem (item : Json) (index : Nat) : Except Unit TodoItem :=
  match item with
  | .str s => .ok { defaultTodo index with content := .str s }
  | .null => .ok (defaultTodo index)
  | .bool _ => .ok (defaultTodo index)
  | .num _ => .ok (defaultTodo index)
  | other => do
    let fld := fun k => match other with
      | .obj fs => lookupField fs k
      | _ => none
    let id := match jsFirstTruthy [fld "id", fld "uuid", fld "key"] with
      | some j => jsToString j
      | none => toString index
    let content := (jsFirstTruthy [fld "content", fld "text",
      fld "description", fld "title", fld "name"]).getD (.str "")
    let rawStatus ← match (jsFirstTruthy [fld "status", fld "state"]).getD
        (.str "") with
      | .str s => pure (strToLower s)
      | _ => .error ()
    let rawPriority ← match (jsFirstTruthy [fld "priority",
        fld "importance"]).getD (.str "") with
      | .str s => pure (strToLower s)
      | _ => .error ()
    .ok { id := id, content := content, status := inferStatus rawStatus,
          priority := inferPriority rawPriority }

/-- `data.map((item, index) => parseTodoItem(item, index))` starting at
index `i`, propagating a thrown `TypeError`. -/
def parseItemsFrom (i : Nat) : List Json → Except Unit (List TodoItem)
  | [] => .ok []
  | j :: rest => do
    let t ← parseTodoItem j i
    let ts ← parseItemsFrom (i + 1) rest
    .ok (t :: ts)

/-- The shape dispatch of `validateAndTransform` over the accepted
JSON shapes.  Note that on `data = null` the probe `data.todos` throws
(the first branch only catches arrays), so JSON `null` input is an
error. -/
def shapeTodos (data : Json) : Except Unit (List TodoItem) :=
  match data with
  | .arr l => parseItemsFrom 0 l
  | _ => do
    let t ← jsField data "todos"
    match t with
    | some (.arr l) => parseItemsFrom 0 l
    | _ => do
      let it ← jsField data "items"
      match it with
      | some (.arr l) => parseItemsFrom 0 l
      | _ =>
        match data with
        | .obj fs =>
          if truthy ((lookupField fs "content").getD .null) ||
              truthy ((lookupField fs "description").getD .null) ||
              truthy ((lookupField fs "text").getD .null) then do
            let t ← parseTodoItem data 0
            pure [t]
          else pure []
        | _ => pure []

/-- `TodoParser.validateAndTransform`: session id from the filename,
todos from the shape dispatch, mtime from the file stats. -/
def validateAndTransform (data : Json) (filePath : String) (mtime : Nat) :
    Except Unit TodoList := do
  let sessionId := sessionIdOfPath filePath
  let todos ← shapeTodos data
  .ok { sessionId := sessionId, todos := todos, filePath := filePath,
        lastUpdated := mtime }

/-- Bytes of a task file, abstracted by their `JSON.parse` outcome. -/
inductive FileData where
  | content (j : Json) (mtime : Nat)
  | invalid
deriving Repr

/-- The watched directory: an association list from path to file
data. -/
def FS := List (String × FileData)

/-- Association lookup in the file system model. -/
def fsLookup : List (String × FileData) → String → Option FileData
  | [], _ => none
  | (p', d) :: rest, p => if p' = p then some d else fsLookup rest p

/-- `TodoParser.parseTodoFile`: missing file, unparsable bytes, or a
`TypeError` escaping `validateAndTransform` all produce the failure
result (`success:false`); otherwise the transformed list. -/
def parseTodoFileFS (fs : List (String × FileData)) (p : String) :
    Option TodoList :=
  match fsLookup fs p with
  | none => none
  | some .invalid => none
  | some (.content j m) =>
    match validateAndTransform j p m with
    | .ok tl => some tl
    | .error _ => none

/-- `TodoWatcher.isSessionTodoFile`: plain substring containment of the
session id plus a case-sensitive `.json` suffix check. -/
def isSessionTodoFile (filename sessionId : String) : Bool :=
  strIncludes filename sessionId && strEndsWith filename ".json"

/-! ## TodoManager (todo orchestrator) -/

/-- Kind of a change or watcher event. -/
inductive EvType where
  | created
  | updated
  | deleted
deriving Repr, DecidableEq

/-- `TodoChangeEvent` emitted by the manager (the `error` flag records
whether an `Error` object is attached). -/
structure ChangeEvent where
  type : EvType
  sessionId : String
  todoList : Option TodoList
  error : Bool
deriving Repr

/-- Association-list read (JavaScript `Map.get`). -/
def assocGet {α : Type} : List (String × α) → String → Option α
  | [], _ => none
  | (k', v) :: rest, k => if k' = k then some v else assocGet rest k

/-- JavaScript `Map.set`: updating an existing key keeps its insertion
position; a fresh key is appended. -/
def assocSet {α : Type} : List (String × α) → String → α → List (String × α)
  | [], k, v => [(k, v)]
  | (k', v') :: rest, k, v =>
    if k' = k then (k, v) :: rest else (k', v') :: assocSet rest k v

/-- JavaScript `Map.delete`. -/
def assocDel {α : Type} : List (String × α) → String → List (String × α)
  | [], _ => []
  | (k', v) :: rest, k =>
    if k' = k then rest else (k', v) :: assocDel rest k

/-- State of a `TodoManager` together with its `TodoWatcher`.
`watcherSession` is the watcher's own `currentSessionId` (which
`stopWatching` does not reset); `watcherActive` records whether watch
handles are open.  Debounce timers map a path to the absolute time the
pending parse fires. -/
structure ManagerState where
  currentSessionId : Option String
  watcherSession : Option String
  watcherActive : Bool
  todoCache : List (String × TodoList)
  parseDebounceTimers : List (String × Nat)
deriving Repr

/-- The quiet window of `TodoManager` (`DEBOUNCE_DELAY = 300` ms). -/
def DEBOUNCE_DELAY : Nat := 300

/-- The idle manager. -/
def initialState : ManagerState :=
  { currentSessionId := none, watcherSession := none,
    watcherActive := false, todoCache := [], parseDebounceTimers := [] }

/-- `extractSessionId(filePath) || this.currentSessionId || 'unknown'`
(JavaScript `||` skips falsy operands, so empty strings fall through). -/
def errorSessionId (p : String) (st : ManagerState) : String :=
  match extractSessionId p with
  | some s =>
    if s.isEmpty then
      match st.currentSessionId with
      | some c => if c.isEmpty then "unknown" else c
      | none => "unknown"
    else s
  | none =>
    match st.currentSessionId with
    | some c => if c.isEmpty then "unknown" else c
    | none => "unknown"

/-- `TodoManager.parseTodoFile`: on success, cache the list and emit
`created` or `updated` depending on whether the path was cached; on any
failure, `handleParseError` emits a single error-tagged event with the
extract-or-active-session correlation.  Never throws. -/
def parseFileStep (fs : List (String × FileData)) (p : String)
    (st : ManagerState) : ManagerState × List ChangeEvent :=
  match parseTodoFileFS fs p with
  | some tl =>
    let isNew := (assocGet st.todoCache p).isNone
    ({ st with todoCache := assocSet st.todoCache p tl },
     [{ type := if isNew then .created else .updated,
        sessionId := tl.sessionId, todoList := some tl, error := false }])
  | none =>
    (st, [{ type := .updated, sessionId := errorSessionId p st,
            todoList := none, error := true }])

/-- `TodoManager.debouncedParseTodoFile`: clear any pending timer for
the path and arm a fresh one for `now + DEBOUNCE_DELAY`. -/
def debouncedParseTodoFile (now : Nat) (p : String) (st : ManagerState) :
    ManagerState :=
  { st with
    parseDebounceTimers :=
      assocSet st.parseDebounceTimers p (now + DEBOUNCE_DELAY) }

/-- `TodoManager.handleTodoFileDeleted`: immediate (no debounce) cache
removal plus a `deleted` event carrying the prior payload; nothing when
the path was not cached. -/
def handleTodoFileDeleted (p : String) (st : ManagerState) :
    ManagerState × List ChangeEvent :=
  match assocGet st.todoCache p with
  | some tl =>
    ({ st with todoCache := assocDel st.todoCache p },
     [{ type := .deleted, sessionId := tl.sessionId, todoList := some tl,
        error := false }])
  | none => (st, [])

/-- `TodoWatcher.getCurrentSessionFiles`: directory listing filtered by
`isSessionTodoFile` against the watcher's session id. -/
def getCurrentSessionFiles (fs : List (String × FileData))
    (st : ManagerState) : List String :=
  match st.watcherSession with
  | none => []
  | some sid => (fs.map (fun e => e.1)).filter (fun f => isSessionTodoFile f sid)

/-- Sequential `parseTodoFile` over a list of paths, accumulating
emitted events. -/
def parseFilesFold (fs : List (String × FileData)) :
    List String → ManagerState → ManagerState × List ChangeEvent
  | [], st => (st, [])
  | p :: ps, st =>
    let r1 := parseFileStep fs p st
    let r2 := parseFilesFold fs ps r1.1
    (r2.1, r1.2 ++ r2.2)

/-- `TodoManager.loadExistingTodos`: guarded by an active session;
parses every current session file immediately (no debounce). -/
def loadExistingTodos (fs : List (String × FileData)) (st : ManagerState) :
    ManagerState × List ChangeEvent :=
  match st.currentSessionId with
  | none => (st, [])
  | some _ => parseFilesFold fs (getCurrentSessionFiles fs st) st

/-- Arm a debounce timer for every path of the list (the effect of the
watcher's synthetic `created` events reaching the manager). -/
def armTimersList (now : Nat) : List String → ManagerState → ManagerState
  | [], st => st
  | p :: ps, st => armTimersList now ps (debouncedParseTodoFile now p st)

/-- `TodoWatcher.startWatching sid`: records the session, opens the
directory watch, and emits one synthetic `created` event per existing
matching file — each of which the manager's `handleTodoFileEvent`
routes into `debouncedParseTodoFile`, arming a timer. -/
def startWatchingStep (fs : List (String × FileData)) (now : Nat)
    (sid : String) (st : ManagerState) : ManagerState :=
  let st1 := { st with watcherSession := some sid, watcherActive := true }
  armTimersList now (getCurrentSessionFiles fs st1) st1

/-- `TodoManager.startSession`: set the active session, clear the
cache, start the watcher (arming one debounce timer per pre-existing
matching file via its synthetic events), then load existing todos
immediately.  Pending debounce timers are not cancelled here. -/
def startSessionM (fs : List (String × FileData)) (now : Nat)
    (sid : String) (st : ManagerState) : ManagerState × List ChangeEvent :=
  let st1 := { st with currentSessionId := some sid, todoCache := [] }
  let st2 := startWatchingStep fs now sid st1
  loadExistingTodos fs st2

/-- `TodoManager.stopSession`: clear the active session, close the
watcher handles (the watcher keeps its last session id), clear the
cache and cancel every pending debounce timer. -/
def stopSessionM (st : ManagerState) : ManagerState :=
  { st with
    currentSessionId := none
    watcherActive := false
    todoCache := []
    parseDebounceTimers := [] }

/-- A debounce timer firing for path `p`: the pending entry is removed
and the parse runs (the callback body parses and deletes the map
entry; the parse itself never reads the timer table). -/
def fireTimer (fs : List (String × FileData)) (p : String)
    (st : ManagerState) : ManagerState × List ChangeEvent :=
  parseFileStep fs p
    { st with parseDebounceTimers := assocDel st.parseDebounceTimers p }

/-- External stimuli fed to the manager: watcher file events and the
session lifecycle calls. -/
inductive InEvent where
  | fileEvent (k : EvType) (p : String)
  | startSess (sid : String)
  | stopSess
deriving Repr, DecidableEq

/-- `TodoManager.handleTodoFileEvent` plus the lifecycle entry points,
at time `now`. -/
def stepInput (fs : List (String × FileData)) (now : Nat) (e : InEvent)
    (st : ManagerState) : ManagerState × List ChangeEvent :=
  match e with
  | .fileEvent .created p => (debouncedParseTodoFile now p st, [])
  | .fileEvent .updated p => (debouncedParseTodoFile now p st, [])
  | .fileEvent .deleted p => handleTodoFileDeleted p st
  | .startSess sid => startSessionM fs now sid st
  | .stopSess => (stopSessionM st, [])

/-- Earliest-deadline pending timer (first entry among minima; ties
between distinct paths armed at the same instant are not relied on by
any theorem below). -/
def minDeadline : List (String × Nat) → Option (String × Nat)
  | [] => none
  | (p, d) :: rest =>
    match minDeadline rest with
    | none => some (p, d)
    | some (p', d') => if d ≤ d' then some (p, d) else some (p', d')

/-- Fire every pending timer whose deadline is strictly before the
cutoff (all of them when the cutoff is `none`), in deadline order.
Firing only removes timers, so the timer count is sufficient fuel. -/
def fireDue (fs : List (String × FileData)) (cutoff : Option Nat) :
    Nat → ManagerState → ManagerState × List (Nat × ChangeEvent)
  | 0, st => (st, [])
  | fuel + 1, st =>
    match minDeadline st.parseDebounceTimers with
    | none => (st, [])
    | some (p, d) =>
      let due := match cutoff with
        | none => true
        | some t => decide (d < t)
      if due then
        let r1 := fireTimer fs p st
        let r2 := fireDue fs cutoff fuel r1.1
        (r2.1, r1.2.map (fun e => (d, e)) ++ r2.2)
      else (st, [])

/-- Serialized event loop: inputs arrive in time order; before each
input, timers strictly older than it fire; after the last input every
remaining timer fires. -/
def runInputs (fs : List (String × FileData)) :
    List (Nat × InEvent) → ManagerState → ManagerState × List (Nat × ChangeEvent)
  | [], st => fireDue fs none st.parseDebounceTimers.length st
  | (t, e) :: rest, st =>
    let r1 := fireDue fs (some t) st.parseDebounceTimers.length st
    let r2 := stepInput fs t e r1.1
    let r3 := runInputs fs rest r2.1
    (r3.1, r1.2 ++ r2.2.map (fun ev => (t, ev)) ++ r3.2)

/-! ## Exports (`TodoManager.exportAsMarkdown` / `exportAsPlainText`) -/

/-- `TodoManager.getCurrentTodos`: the cache's values in insertion
order. -/
def getCurrentTodos (st : ManagerState) : List TodoList :=
  st.todoCache.map (fun e => e.2)

/-- The `byStatus` accumulation loop of `exportAsMarkdown`: one pass
over the list pushing each todo onto its status bucket. -/
def groupByStatus (todos : List TodoItem) :
    List TodoItem × List TodoItem × List TodoItem :=
  todos.foldl
    (fun acc t =>
      match t.status with
      | .pending => (acc.1 ++ [t], acc.2.1, acc.2.2)
      | .in_progress => (acc.1, acc.2.1 ++ [t], acc.2.2)
      | .completed => (acc.1, acc.2.1, acc.2.2 ++ [t]))
    ([], [], [])

/-- Markdown line for a pending todo (high priority gets a warning
marker). -/
def markdownPendingLine (t : TodoItem) : String :=
  "- [ ] " ++ jsToString t.content ++
    (if t.priority = .high then " ⚠️" else "")

/-- Markdown line for an in-progress todo. -/
def markdownProgressLine (t : TodoItem) : String :=
  "- [~] " ++ jsToString t.content ++
    (if t.priority = .high then " ⚠️" else "")

/-- Markdown line for a completed todo. -/
def markdownCompletedLine (t : TodoItem) : String :=
  "- [x] " ++ jsToString t.content

/-- Markdown block for one cached list: session header, then the three
status sections in bucket order, each section omitted when empty. -/
def markdownListLines (tl : TodoList) : List String :=
  let g := groupByStatus tl.todos
  ["## Session: " ++ tl.sessionId, ""] ++
  (if g.1.isEmpty then []
   else ["### Pending", ""] ++ g.1.map markdownPendingLine ++ [""]) ++
  (if g.2.1.isEmpty then []
   else ["### In Progress", ""] ++ g.2.1.map markdownProgressLine ++ [""]) ++
  (if g.2.2.isEmpty then []
   else ["### Completed", ""] ++ g.2.2.map markdownCompletedLine ++ [""])

/-- `TodoManager.exportAsMarkdown`. -/
def exportAsMarkdown (st : ManagerState) : String :=
  String.intercalate "\n"
    (["# Claude Pilot Todos", ""] ++
      ((getCurrentTodos st).map markdownListLines).flatten)

/-- `todo.status.replace('_', ' ').toUpperCase()`. -/
def plainStatusTag : TStatus → String
  | .pending => "PENDING"
  | .in_progress => "IN PROGRESS"
  | .completed => "COMPLETED"

/-- `todo.priority.toUpperCase()`. -/
def plainPriorityTag : TPriority → String
  | .low => "LOW"
  | .medium => "MEDIUM"
  | .high => "HIGH"

/-- Plain-text line for one todo, in the list's own order. -/
def plainLine (t : TodoItem) : String :=
  "[" ++ plainStatusTag t.status ++ "] [" ++ plainPriorityTag t.priority ++
    "] " ++ jsToString t.content

/-- `'-'.repeat(40)`. -/
def dashesLine : String :=
  String.mk (List.replicate 40 '-')

/-- Plain-text block for one cached list. -/
def plainListLines (tl : TodoList) : List String :=
  ["Session: " ++ tl.sessionId, dashesLine, ""] ++
    tl.todos.map plainLine ++ [""]

/-- `TodoManager.exportAsPlainText`. -/
def exportAsPlainText (st : ManagerState) : String :=
  String.intercalate "\n"
    (["Claude Pilot Todos", "==================", ""] ++
      ((getCurrentTodos st).map plainListLines).flatten)

/-! ## HookServer (src/services/hookServer.ts) -/

/-- The session info assembled by `handleSessionHook` (timestamp and
global-state persistence are environment effects outside the model). -/
structure SessionInfo where
  sessionId : Option Json
  transcriptPath : Option Json
  cwd : Option Json
  lastPrompt : Option Json
deriving Repr

/-- Typed events the server emits to registered listeners. -/
inductive HookEmit where
  | sessionUpdate (info : SessionInfo)
  | todoUpdate (sessionId : Option Json) (todos : Json)
      (toolResponse : Option Json)
  | hookEvent (hookType : Option Json) (sessionId : Option Json)
deriving Repr

/-- `HookServer.handleSessionHook`: always emits one `sessionUpdate`
built from the payload's fields (property access throws only when the
parsed body is JSON `null`). -/
def handleSessionHook (data : Json) : Except Unit (List HookEmit) := do
  let sid ← jsField data "session_id"
  let tp ← jsField data "transcript_path"
  let cw ← jsField data "cwd"
  let pr ← jsField data "prompt"
  .ok [.sessionUpdate { sessionId := sid, transcriptPath := tp, cwd := cw,
                        lastPrompt := pr }]

/-- `data.tool_input?.todos || []`: optional chaining never throws; a
falsy result falls back to the empty array. -/
def todosOfToolInput (ti : Option Json) : Json :=
  match ti with
  | some (.obj fs) =>
    match lookupField fs "todos" with
    | some v => if truthy v then v else .arr []
    | none => .arr []
  | _ => .arr []

/-- `HookServer.handleTodoHook`: emits a `todoUpdate` only when
`data.tool_name === 'TodoWrite'`; any other payload emits nothing (the
success response is still sent). -/
def handleTodoHook (data : Json) : Except Unit (List HookEmit) := do
  let tn ← jsField data "tool_name"
  match tn with
  | some (.str s) =>
    if s = "TodoWrite" then do
      let sid ← jsField data "session_id"
      let ti ← jsField data "tool_input"
      let tr ← jsField data "tool_response"
      .ok [.todoUpdate sid (todosOfToolInput ti) tr]
    else .ok []
  | _ => .ok []

/-- `HookServer.handleGeneralHook`: always emits one generic `hook`
event. -/
def handleGeneralHook (data : Json) : Except Unit (List HookEmit) := do
  let ht ← jsField data "hook_type"
  let sid ← jsField data "session_id"
  .ok [.hookEvent ht sid]

/-- `HookServer.handleRequest`: CORS preflight, method check, body
parse (`none` models bytes on which `JSON.parse` throws, answered 500
before any routing), then the path switch; a handler throw is caught by
the same try/catch and also answered 500.  Returns the HTTP status and
the events emitted to listeners. -/
def handleRequest (method pathname : String) (body : Option Json) :
    Nat × List HookEmit :=
  if method = "OPTIONS" then (200, [])
  else if method ≠ "POST" then (405, [])
  else
    match body with
    | none => (500, [])
    | some data =>
      match pathname with
      | "/hook/session" =>
        match handleSessionHook data with
        | .ok evs => (200, evs)
        | .error _ => (500, [])
      | "/hook/todo" =>
        match handleTodoHook data with
        | .ok evs => (200, evs)
        | .error _ => (500, [])
      | "/hook/general" =>
        match handleGeneralHook data with
        | .ok evs => (200, evs)
        | .error _ => (500, [])
      | _ => (404, [])

/-! ## HookManager (src/services/hookManager.ts) -/

/-- One `{type: 'command', command: ...}` entry. -/
structure HookConfig where
  cmdType : String
  command : String
deriving Repr, DecidableEq

/-- One `{matcher?, hooks: [...]}` entry of a hook category array. -/
structure HookDefinition where
  hooks : List HookConfig
  matcher : Option String
deriving Repr, DecidableEq

/-- The `hooks` object of the Claude settings document (absent arrays
are `none`; keys other than `hooks` are never touched by
`installHooks` and are outside the model). -/
structure ClaudeSettings where
  userPromptSubmit : Option (List HookDefinition)
  postToolUse : Option (List HookDefinition)
  preToolUse : Option (List HookDefinition)
deriving Repr, DecidableEq

/-- `hookDef.hooks.some(hook => hook.command && hook.command.includes('/hook/'))`:
the marker identifying this extension's own entries is the literal
substring `/hook/`, not the full server address. -/
def hasHookMarker (hd : HookDefinition) : Bool :=
  hd.hooks.any (fun h => !h.command.isEmpty && strIncludes h.command "/hook/")

/-- JavaScript truthiness of the optional `matcher` parameter. -/
def matcherTruthy : Option String → Bool
  | some s => !s.isEmpty
  | none => false

set_option linter.unusedVariables false in
/-- `HookManager.mergeHooks`: drop existing entries that carry the
`/hook/` marker — unless a matcher argument is supplied and the entry's
matcher differs — then append the fresh entries.  The `identifier`
parameter is accepted and never read, as in the source. -/
def mergeHooks (existing newHooks : List HookDefinition)
    (identifier : String) (matcher : Option String) : List HookDefinition :=
  let filtered := existing.filter (fun hd =>
    !hasHookMarker hd || (matcherTruthy matcher && decide (hd.matcher ≠ matcher)))
  filtered ++ newHooks

/-- Command string of the session hook entry. -/
def sessionHookCommand (serverUrl : String) : String :=
  "curl -s -X POST " ++ serverUrl ++
    "/hook/session -H \"Content-Type: application/json\" -d @-"

/-- Command string of the todo hook entry. -/
def todoHookCommand (serverUrl : String) : String :=
  "curl -s -X POST " ++ serverUrl ++
    "/hook/todo -H \"Content-Type: application/json\" -d @-"

/-- The `UserPromptSubmit` entries this extension installs. -/
def claudePilotSessionHooks (serverUrl : String) : List HookDefinition :=
  [{ hooks := [{ cmdType := "command",
                 command := sessionHookCommand serverUrl }],
     matcher := none }]

/-- The `PostToolUse` entries this extension installs. -/
def claudePilotTodoHooks (serverUrl : String) : List HookDefinition :=
  [{ hooks := [{ cmdType := "command",
                 command := todoHookCommand serverUrl }],
     matcher := some "TodoWrite" }]

/-- `HookManager.installHooks` acting on an already-loaded settings
document (file I/O, corrupt-file backup and rewriting are environment
effects): merge the two categories, leave `PreToolUse` alone. -/
def installHooks (serverUrl : String) (settings : ClaudeSettings) :
    ClaudeSettings :=
  { userPromptSubmit := some (mergeHooks (settings.userPromptSubmit.getD [])
      (claudePilotSessionHooks serverUrl) "claudepilot-session" none)
    postToolUse := some (mergeHooks (settings.postToolUse.getD [])
      (claudePilotTodoHooks serverUrl) "claudepilot-todo" (some "TodoWrite"))
    preToolUse := settings.preToolUse }

/-! ## Predicates used by the claim statements -/

/-- Is the value the JSON literal `null`? -/
def isNullJson : Json → Bool
  | .null => true
  | _ => false

/-- The shapes `validateAndTransform` recognises: a bare array, an
object with an array under `todos` or `items`, or an object with a
truthy `content`, `description` or `text` property. -/
def acceptedShape (j : Json) : Bool :=
  match j with
  | .arr _ => true
  | .obj fs =>
    (match lookupField fs "todos" with
     | some (.arr _) => true
     | _ => false) ||
    (match lookupField fs "items" with
     | some (.arr _) => true
     | _ => false) ||
    truthy ((lookupField fs "content").getD .null) ||
    truthy ((lookupField fs "description").getD .null) ||
    truthy ((lookupField fs "text").getD .null)
  | _ => false

/-- Does the payload satisfy `data.tool_name === 'TodoWrite'`? -/
def toolNameIsTodoWrite (data : Json) : Bool :=
  match data with
  | .obj fs =>
    match lookupField fs "tool_name" with
    | some (.str s) => s == "TodoWrite"
    | _ => false
  | _ => false

/-- Numeric priority rank (`high` greatest), used to state the spec's
claimed high-to-low ordering. -/
def priorityRank : TPriority → Nat
  | .low => 0
  | .medium => 1
  | .high => 2

/-- The ordering the specification claims for the items rendered inside
one status group: priority from high to low, ties broken lexically by
content. -/
def specPrioritySorted (l : List TodoItem) : Prop :=
  l.Pairwise (fun x y =>
    priorityRank y.priority < priorityRank x.priority ∨
      (priorityRank x.priority = priorityRank y.priority ∧
        jsToString x.content ≤ jsToString y.content))

/-- Is the input a created/updated watcher event for path `P`? -/
def isArmEventFor (P : String) : Nat × InEvent → Bool
  | (_, .fileEvent .created p) => p == P
  | (_, .fileEvent .updated p) => p == P
  | _ => false

/-- Strictly increasing input times with consecutive gaps below the
quiet window. -/
def rapidTimes : List (Nat × InEvent) → Bool
  | [] => true
  | [_] => true
  | (t1, _) :: (t2, e2) :: rest =>
    decide (t1 < t2) && decide (t2 < t1 + DEBOUNCE_DELAY) &&
      rapidTimes ((t2, e2) :: rest)

/-- Timestamp of the last input (`0` for an empty list). -/
def lastTime : List (Nat × InEvent) → Nat
  | [] => 0
  | [(t, _)] => t
  | _ :: rest => lastTime rest

/-- Timestamp of the first input (`0` for an empty list). -/
def headTime : List (Nat × InEvent) → Nat
  | [] => 0
  | (t, _) :: _ => t

/-- Is the input a watcher file event whose path matches session `b`
by the watcher's substring criterion?  (The real `DirectoryWatcher`
only delivers such events while watching `b`.) -/
def watcherEventFor (b : String) : Nat × InEvent → Bool
  | (_, .fileEvent _ p) => isSessionTodoFile p b
  | _ => false

/-- No cached list carries session id `a`. -/
def cacheSessionOK (a : String) (st : ManagerState) : Prop :=
  ∀ e ∈ st.todoCache, (e : String × TodoList).2.sessionId ≠ a

/-- Every pending debounce timer belongs to a path matching session
`b`. -/
def timersMatch (b : String) (st : ManagerState) : Prop :=
  ∀ e ∈ st.parseDebounceTimers, isSessionTodoFile (e : String × Nat).1 b = true

/-! ## General lemmas -/

theorem hasSubList_append_right (needle l2 l1 : List Char)
    (h : hasSubList needle l2 = true) : hasSubList needle (l1 ++ l2) = true := by
  induction l1 with
  | nil => simpa using h
  | cons c cs ih =>
    show hasSubList needle (c :: (cs ++ l2)) = true
    rw [hasSubList]
    rw [ih]
    simp

theorem data_ne_nil_of_ne_empty (s : String) (h : s.data ≠ []) :
    s.isEmpty = false := by
  rw [Bool.eq_false_iff]
  intro hc
  have he := (String.isEmpty_iff s).mp hc
  subst he
  simp at h

theorem sessionHookCommand_data (url : String) :
    (sessionHookCommand url).data =
      ("curl -s -X POST ".data ++ url.data) ++
        "/hook/session -H \"Content-Type: application/json\" -d @-".data := by
  rw [sessionHookCommand, String.data_append, String.data_append]

theorem todoHookCommand_data (url : String) :
    (todoHookCommand url).data =
      ("curl -s -X POST ".data ++ url.data) ++
        "/hook/todo -H \"Content-Type: application/json\" -d @-".data := by
  rw [todoHookCommand, String.data_append, String.data_append]

theorem sessionHookCommand_marker (url : String) :
    strIncludes (sessionHookCommand url) "/hook/" = true := by
  rw [strIncludes, sessionHookCommand_data]
  exact hasSubList_append_right _ _ _ (by decide)

theorem todoHookCommand_marker (url : String) :
    strIncludes (todoHookCommand url) "/hook/" = true := by
  rw [strIncludes, todoHookCommand_data]
  exact hasSubList_append_right _ _ _ (by decide)

theorem sessionHookCommand_ne_empty (url : String) :
    (sessionHookCommand url).isEmpty = false := by
  apply data_ne_nil_of_ne_empty
  rw [sessionHookCommand_data]
  simp

theorem todoHookCommand_ne_empty (url : String) :
    (todoHookCommand url).isEmpty = false := by
  apply data_ne_nil_of_ne_empty
  rw [todoHookCommand_data]
  simp

theorem session_entry_marker (url : String) :
    ∀ hd ∈ claudePilotSessionHooks url, hasHookMarker hd = true := by
  intro hd hmem
  rw [claudePilotSessionHooks, List.mem_singleton] at hmem
  subst hmem
  simp [hasHookMarker, sessionHookCommand_ne_empty, sessionHookCommand_marker]

theorem todo_entry_marker (url : String) :
    ∀ hd ∈ claudePilotTodoHooks url, hasHookMarker hd = true := by
  intro hd hmem
  rw [claudePilotTodoHooks, List.mem_singleton] at hmem
  subst hmem
  simp [hasHookMarker, todoHookCommand_ne_empty, todoHookCommand_marker]

theorem mergeHooks_none_eq_filter (E S : List HookDefinition) (i : String) :
    mergeHooks E S i none =
      E.filter (fun hd => !hasHookMarker hd) ++ S := by
  unfold mergeHooks
  dsimp only
  congr 1
  apply List.filter_congr
  intro hd _
  simp [matcherTruthy]

theorem mergeHooks_some_eq_filter (E S : List HookDefinition) (i m : String)
    (hm : m ≠ "") :
    mergeHooks E S i (some m) =
      E.filter (fun hd => !hasHookMarker hd || decide (hd.matcher ≠ some m)) ++ S := by
  unfold mergeHooks
  dsimp only
  congr 1
  apply List.filter_congr
  intro hd _
  have hie : m.isEmpty = false := by
    rw [Bool.eq_false_iff]
    intro hc
    exact hm ((String.isEmpty_iff m).mp hc)
  have : matcherTruthy (some m) = true := by
    simp [matcherTruthy, hie]
  rw [this]
  simp

theorem c7_session_absorb (url : String) (E : List HookDefinition)
    (i i' : String) :
    mergeHooks (mergeHooks E (claudePilotSessionHooks url) i none)
      (claudePilotSessionHooks url) i' none =
      mergeHooks E (claudePilotSessionHooks url) i none := by
  rw [mergeHooks_none_eq_filter, mergeHooks_none_eq_filter,
    List.filter_append, List.filter_filter]
  have hS : (claudePilotSessionHooks url).filter
      (fun hd => !hasHookMarker hd) = [] := by
    rw [List.filter_eq_nil_iff]
    intro hd hmem
    simp [session_entry_marker url hd hmem]
  rw [hS, List.append_nil]
  congr 1
  apply List.filter_congr
  intro hd _
  simp

theorem c7_todo_absorb (url : String) (E : List HookDefinition)
    (i i' : String) :
    mergeHooks (mergeHooks E (claudePilotTodoHooks url) i (some "TodoWrite"))
      (claudePilotTodoHooks url) i' (some "TodoWrite") =
      mergeHooks E (claudePilotTodoHooks url) i (some "TodoWrite") := by
  rw [mergeHooks_some_eq_filter _ _ _ _ (by decide),
    mergeHooks_some_eq_filter _ _ _ _ (by decide),
    List.filter_append, List.filter_filter]
  have hS : (claudePilotTodoHooks url).filter
      (fun hd => !hasHookMarker hd || decide (hd.matcher ≠ some "TodoWrite")) = [] := by
    rw [List.filter_eq_nil_iff]
    intro hd hmem
    have hmark := todo_entry_marker url hd hmem
    have hmatch : hd.matcher = some "TodoWrite" := by
      rw [claudePilotTodoHooks, List.mem_singleton] at hmem
      subst hmem
      rfl
    simp [hmark, hmatch]
  rw [hS, List.append_nil]
  congr 1
  apply List.filter_congr
  intro hd _
  simp

/-- C7: merge idempotence — running `installHooks` twice with the same
listener address yields exactly the settings of the first run: the
second run removes precisely its own appended entries (identified by
the `/hook/` marker, and for `PostToolUse` the `TodoWrite` matcher)
before appending them again, and the filter keeps every entry it kept
the first time. -/
theorem c7_install_idempotent (url : String) (settings : ClaudeSettings) :
    installHooks url (installHooks url settings) = installHooks url settings := by
  unfold installHooks
  dsimp only
  rw [Option.getD_some, Option.getD_some, c7_session_absorb, c7_todo_absorb]

/-- C6 counterexample: a pre-existing `UserPromptSubmit` entry whose
command is `curl -s http://example.com/hook/x -d @-` does not contain
the listener's address `http://127.0.0.1:3000` anywhere, yet
`installHooks` removes it (the filter keys on the substring `/hook/`,
not on the address), leaving only the freshly appended entry.  This
refutes the claim that every entry not matching the engine's address
marker is preserved. -/
theorem c6_counterexample :
    (installHooks "http://127.0.0.1:3000"
        { userPromptSubmit := some
            [{ hooks := [{ cmdType := "command",
                           command := "curl -s http://example.com/hook/x -d @-" }],
               matcher := none }]
          postToolUse := none
          preToolUse := none }).userPromptSubmit =
      some (claudePilotSessionHooks "http://127.0.0.1:3000") ∧
    strIncludes "curl -s http://example.com/hook/x -d @-"
      "http://127.0.0.1:3000" = false := by
  constructor
  · rfl
  · rfl

/-- C6 amended: the merge preserves exactly the entries whose command
strings do not contain the marker substring `/hook/` (the code's
identifying pattern, rather than the listener's full address): in both
categories the non-marker entries of the result are byte-for-byte the
non-marker entries of the input, in order; additionally, in the
`PostToolUse` category an entry whose matcher differs from `TodoWrite`
is preserved even when its command does contain `/hook/`. -/
theorem c6_frame_marker (settings : ClaudeSettings) (url : String) :
    (((installHooks url settings).userPromptSubmit.getD []).filter
        (fun hd => !hasHookMarker hd) =
      (settings.userPromptSubmit.getD []).filter (fun hd => !hasHookMarker hd))
  ∧ (((installHooks url settings).postToolUse.getD []).filter
        (fun hd => !hasHookMarker hd) =
      (settings.postToolUse.getD []).filter (fun hd => !hasHookMarker hd))
  ∧ (∀ hd ∈ settings.postToolUse.getD [], hd.matcher ≠ some "TodoWrite" →
      hd ∈ (installHooks url settings).postToolUse.getD []) := by
  unfold installHooks
  dsimp only
  rw [Option.getD_some, Option.getD_some]
  refine ⟨?_, ?_, ?_⟩
  · rw [mergeHooks_none_eq_filter, List.filter_append, List.filter_filter]
    have hS : (claudePilotSessionHooks url).filter
        (fun hd => !hasHookMarker hd) = [] := by
      rw [List.filter_eq_nil_iff]
      intro hd hmem
      simp [session_entry_marker url hd hmem]
    rw [hS, List.append_nil]
    apply List.filter_congr
    intro hd _
    simp
  · rw [mergeHooks_some_eq_filter _ _ _ _ (by decide), List.filter_append,
      List.filter_filter]
    have hT : (claudePilotTodoHooks url).filter
        (fun hd => !hasHookMarker hd) = [] := by
      rw [List.filter_eq_nil_iff]
      intro hd hmem
      simp [todo_entry_marker url hd hmem]
    rw [hT, List.append_nil]
    apply List.filter_congr
    intro hd _
    cases hmk : hasHookMarker hd <;> simp [hmk]
  · intro hd hmem hmatch
    rw [mergeHooks_some_eq_filter _ _ _ _ (by decide)]
    apply List.mem_append_left
    rw [List.mem_filter]
    refine ⟨hmem, ?_⟩
    cases hmk : hasHookMarker hd <;> simp [hmk, hmatch]

/-- C6 witness: a foreign `PostToolUse` entry with matcher `Other`
survives a concrete install. -/
theorem c6_frame_marker_witness :
    ({ hooks := [{ cmdType := "command",
                   command := "curl http://other.tool/hook/y" }],
       matcher := some "Other" } : HookDefinition) ∈
      (installHooks "http://127.0.0.1:4000"
        { userPromptSubmit := none
          postToolUse := some
            [{ hooks := [{ cmdType := "command",
                           command := "curl http://other.tool/hook/y" }],
               matcher := some "Other" }]
          preToolUse := none }).postToolUse.getD [] :=
  (c6_frame_marker _ "http://127.0.0.1:4000").2.2 _ (by decide) (by decide)

/-- C5 counterexample: a well-formed payload POSTed to the task-update
path whose tool name is `Bash` (not the expected task-writing tool)
receives the success response but causes no event at all — in
particular no generic `hook` event, contradicting the claim that every
non-matching well-formed payload yields one. -/
theorem c5_counterexample :
    handleRequest "POST" "/hook/todo"
      (some (.obj [("tool_name", .str "Bash"), ("session_id", .str "s")])) =
      (200, []) := rfl

/-- C5 amended: for every payload that is not JSON `null` (so property
access cannot throw), the session path emits exactly one
`sessionUpdate`; the todo path emits exactly one `todoUpdate` when
`tool_name === 'TodoWrite'` and emits nothing otherwise; only the
generic path emits the generic `hook` event, exactly one per
payload. -/
theorem c5_event_typing (data : Json) (hnn : isNullJson data = false) :
    (∃ i, handleRequest "POST" "/hook/session" (some data) =
      (200, [.sessionUpdate i]))
  ∧ (toolNameIsTodoWrite data = true →
      ∃ s t r, handleRequest "POST" "/hook/todo" (some data) =
        (200, [.todoUpdate s t r]))
  ∧ (toolNameIsTodoWrite data = false →
      handleRequest "POST" "/hook/todo" (some data) = (200, []))
  ∧ (∃ h s, handleRequest "POST" "/hook/general" (some data) =
      (200, [.hookEvent h s])) := by
  cases data with
  | null => simp [isNullJson] at hnn
  | bool b =>
    exact ⟨⟨_, rfl⟩, fun h => by simp [toolNameIsTodoWrite] at h,
      fun _ => rfl, _, _, rfl⟩
  | num n =>
    exact ⟨⟨_, rfl⟩, fun h => by simp [toolNameIsTodoWrite] at h,
      fun _ => rfl, _, _, rfl⟩
  | str s =>
    exact ⟨⟨_, rfl⟩, fun h => by simp [toolNameIsTodoWrite] at h,
      fun _ => rfl, _, _, rfl⟩
  | arr l =>
    exact ⟨⟨_, rfl⟩, fun h => by simp [toolNameIsTodoWrite] at h,
      fun _ => rfl, _, _, rfl⟩
  | obj fs =>
    refine ⟨⟨_, rfl⟩, ?_, ?_, _, _, rfl⟩
    · intro h
      rw [toolNameIsTodoWrite] at h
      rcases htn : lookupField fs "tool_name" with _ | v
      · rw [htn] at h
        simp at h
      · cases v with
        | str s =>
          rw [htn] at h
          simp only [beq_iff_eq] at h
          subst h
          refine ⟨lookupField fs "session_id",
            todosOfToolInput (lookupField fs "tool_input"),
            lookupField fs "tool_response", ?_⟩
          simp [handleRequest, handleTodoHook, jsField, htn, bind,
            Except.bind]
        | null => rw [htn] at h; simp at h
        | bool b => rw [htn] at h; simp at h
        | num n => rw [htn] at h; simp at h
        | arr l => rw [htn] at h; simp at h
        | obj fs2 => rw [htn] at h; simp at h
    · intro h
      rw [toolNameIsTodoWrite] at h
      rcases htn : lookupField fs "tool_name" with _ | v
      · simp [handleRequest, handleTodoHook, jsField, htn, bind, Except.bind]
      · cases v with
        | str s =>
          rw [htn] at h
          simp only [beq_eq_false_iff_ne, ne_eq] at h
          simp [handleRequest, handleTodoHook, jsField, htn, bind,
            Except.bind, h]
        | null =>
          simp [handleRequest, handleTodoHook, jsField, htn, bind, Except.bind]
        | bool b =>
          simp [handleRequest, handleTodoHook, jsField, htn, bind, Except.bind]
        | num n =>
          simp [handleRequest, handleTodoHook, jsField, htn, bind, Except.bind]
        | arr l =>
          simp [handleRequest, handleTodoHook, jsField, htn, bind, Except.bind]
        | obj fs2 =>
          simp [handleRequest, handleTodoHook, jsField, htn, bind, Except.bind]

/-- C5 witness: the amended typing evaluated on a concrete `TodoWrite`
payload. -/
theorem c5_event_typing_witness :
    isNullJson (.obj [("tool_name", .str "Bash")]) = false ∧
    toolNameIsTodoWrite (.obj [("tool_name", .str "Bash")]) = false ∧
    handleRequest "POST" "/hook/todo"
      (some (.obj [("tool_name", .str "Bash")])) = (200, []) :=
  ⟨rfl, rfl, (c5_event_typing (.obj [("tool_name", .str "Bash")]) rfl).2.2.1 rfl⟩

theorem shapeTodos_unaccepted :
    ∀ j, isNullJson j = false → acceptedShape j = false →
      shapeTodos j = .ok [] := by
  intro j hnull hacc
  cases j with
  | null => simp [isNullJson] at hnull
  | bool b => rfl
  | num n => rfl
  | str s => rfl
  | arr l => simp [acceptedShape] at hacc
  | obj fjs =>
    rw [acceptedShape] at hacc
    simp only [Bool.or_eq_false_iff] at hacc
    obtain ⟨⟨⟨⟨ht, hi⟩, hc⟩, hd⟩, hx⟩ := hacc
    simp only [shapeTodos, jsField, bind, Except.bind, pure, Except.pure]
    split
    · next l1 heq =>
      rw [heq] at ht
      simp at ht
    · split
      · next l2 heq =>
        rw [heq] at hi
        simp at hi
      · rw [hc, hd, hx]
        simp

theorem validate_unaccepted (p : String) (m : Nat) :
    ∀ j, isNullJson j = false → acceptedShape j = false →
      (validateAndTransform j p m).map TodoList.todos = .ok [] := by
  intro j hnull hacc
  rw [validateAndTransform]
  simp only [bind, Except.bind, shapeTodos_unaccepted j hnull hacc]
  rfl

/-- C1 counterexample: the JSON value `null` is a valid JSON shape
outside the accepted set, yet parsing a file whose bytes are `null`
produces the failure result (`success:false`), not an empty TaskList:
inside `validateAndTransform` the probe `data.todos` throws a
`TypeError` on a null base, which `parseTodoFile` catches and reports
as an error.  This refutes the claim's final clause. -/
theorem c1_counterexample :
    parseTodoFileFS [("todos-a.json", .content .null 0)] "todos-a.json" =
      none := rfl

/-- C1 amended: the three advertised shapes (`{todos:[{content:"x"}]}`
— the spec renames the `todos` key to `tasks` — `{items:[{text:"x"}]}`
and `["x"]`) each parse to exactly one item with content `"x"`, status
`pending`, priority `medium`; and every JSON shape outside the accepted
set other than JSON `null` parses to an empty todo list without an
error (JSON `null` itself is reported as a parse error, per the
counterexample). -/
theorem c1_parser_tolerance (p : String) (m : Nat) :
    ((validateAndTransform
        (.obj [("todos", .arr [.obj [("content", .str "x")]])]) p m).map
          TodoList.todos =
      .ok [{ id := "0", content := .str "x", status := .pending,
             priority := .medium }])
  ∧ ((validateAndTransform
        (.obj [("items", .arr [.obj [("text", .str "x")]])]) p m).map
          TodoList.todos =
      .ok [{ id := "0", content := .str "x", status := .pending,
             priority := .medium }])
  ∧ ((validateAndTransform (.arr [.str "x"]) p m).map TodoList.todos =
      .ok [{ id := "0", content := .str "x", status := .pending,
             priority := .medium }])
  ∧ (∀ j, isNullJson j = false → acceptedShape j = false →
      (validateAndTransform j p m).map TodoList.todos = .ok []) :=
  ⟨rfl, rfl, rfl, validate_unaccepted p m⟩

/-- C1 witness: the amended tolerance evaluated at a concrete path and
a concrete unaccepted shape. -/
theorem c1_parser_tolerance_witness :
    ((validateAndTransform (.arr [.str "x"]) "todos-a.json" 0).map
        TodoList.todos =
      .ok [{ id := "0", content := .str "x", status := .pending,
             priority := .medium }])
  ∧ (isNullJson (.num 7) = false ∧ acceptedShape (.num 7) = false ∧
      (validateAndTransform (.num 7) "todos-a.json" 0).map TodoList.todos =
        .ok []) :=
  ⟨(c1_parser_tolerance "todos-a.json" 0).2.2.1,
   rfl, rfl, (c1_parser_tolerance "todos-a.json" 0).2.2.2 (.num 7) rfl rfl⟩

theorem findCapture_sound (pre : List Char) :
    ∀ l cap, findCapture pre l = some cap →
      cap ≠ [] ∧ cap.all hexDashChar = true ∧ ∀ c ∈ cap, c ∈ l := by
  intro l
  induction l with
  | nil =>
    intro cap h
    simp [findCapture] at h
  | cons c cs ih =>
    intro cap h
    rw [findCapture] at h
    dsimp only at h
    split at h
    · split at h
      · next hcond =>
        rw [Option.some.injEq] at h
        subst h
        rw [Bool.and_eq_true] at hcond
        refine ⟨?_, hcond.2, ?_⟩
        · intro hnil
          rw [hnil] at hcond
          simp at hcond
        · intro x hx
          exact List.drop_subset _ _ hx
      · obtain ⟨h1, h2, h3⟩ := ih cap h
        exact ⟨h1, h2, fun x hx => List.mem_cons_of_mem c (h3 x hx)⟩
    · obtain ⟨h1, h2, h3⟩ := ih cap h
      exact ⟨h1, h2, fun x hx => List.mem_cons_of_mem c (h3 x hx)⟩

theorem matchPattern_sound (pre suf l cap : List Char)
    (h : matchPattern pre suf l = some cap) :
    cap ≠ [] ∧ cap.all hexDashChar = true ∧ (∀ c ∈ cap, c ∈ l) ∧
      ciEndsWith suf l = true := by
  rw [matchPattern] at h
  split at h
  · next hend =>
    obtain ⟨h1, h2, h3⟩ := findCapture_sound pre _ cap h
    exact ⟨h1, h2, fun c hc => List.take_subset _ _ (h3 c hc), hend⟩
  · simp at h

theorem ciStartsWith_append (p q l : List Char)
    (h : ciStartsWith (p ++ q) l = true) : ciStartsWith p l = true := by
  induction p generalizing l with
  | nil => rfl
  | cons a ps ih =>
    cases l with
    | nil => simp [ciStartsWith] at h
    | cons c cs =>
      rw [List.cons_append, ciStartsWith, Bool.and_eq_true] at h
      rw [ciStartsWith, Bool.and_eq_true]
      exact ⟨h.1, ih cs h.2⟩

theorem ciEndsWith_of_append (a b l : List Char)
    (h : ciEndsWith (a ++ b) l = true) : ciEndsWith b l = true := by
  rw [ciEndsWith, List.reverse_append] at h
  exact ciStartsWith_append _ _ _ h

theorem mk_ne_empty_of_ne_nil (cap : List Char) (h : cap ≠ []) :
    String.mk cap ≠ "" := by
  intro hc
  apply h
  have : (String.mk cap).data = ("" : String).data := by rw [hc]
  simpa using this

theorem extract_sound (path : String) (id : String)
    (h : extractSessionId path = some id) :
    id ≠ "" ∧ id.data.all hexDashChar = true ∧
      ciEndsWith ".json".data (basenameOf path).data = true := by
  rw [extractSessionId] at h
  dsimp only at h
  rcases h1 : matchPattern "todos-".data ".json".data (basenameOf path).data
      with _ | cap1
  · rw [h1] at h
    rcases h2 : matchPattern [] "-todos.json".data (basenameOf path).data
        with _ | cap2
    · rw [h2] at h
      rcases h3 : matchPattern "todos_".data ".json".data
          (basenameOf path).data with _ | cap3
      · rw [h3] at h
        rcases h4 : matchPattern [] ".json".data (basenameOf path).data
            with _ | cap4
        · rw [h4] at h
          simp at h
        · rw [h4, Option.some.injEq] at h
          subst h
          obtain ⟨hne, hall, _, hend⟩ := matchPattern_sound _ _ _ _ h4
          exact ⟨mk_ne_empty_of_ne_nil _ hne, hall, hend⟩
      · rw [h3, Option.some.injEq] at h
        subst h
        obtain ⟨hne, hall, _, hend⟩ := matchPattern_sound _ _ _ _ h3
        exact ⟨mk_ne_empty_of_ne_nil _ hne, hall, hend⟩
    · rw [h2, Option.some.injEq] at h
      subst h
      obtain ⟨hne, hall, _, hend⟩ := matchPattern_sound _ _ _ _ h2
      have hend5 : ciEndsWith ".json".data (basenameOf path).data = true := by
        have hsplit : "-todos.json".data = "-todos".data ++ ".json".data := rfl
        rw [hsplit] at hend
        exact ciEndsWith_of_append _ _ _ hend
      exact ⟨mk_ne_empty_of_ne_nil _ hne, hall, hend5⟩
  · rw [h1, Option.some.injEq] at h
    subst h
    obtain ⟨hne, hall, _, hend⟩ := matchPattern_sound _ _ _ _ h1
    exact ⟨mk_ne_empty_of_ne_nil _ hne, hall, hend⟩

theorem extract_none_of_no_hex (path : String)
    (hno : ∀ c ∈ (basenameOf path).data, hexDashChar c = false) :
    extractSessionId path = none := by
  have key : ∀ pre suf,
      matchPattern pre suf (basenameOf path).data = none := by
    intro pre suf
    rcases hm : matchPattern pre suf (basenameOf path).data with _ | cap
    · rfl
    · obtain ⟨hne, hall, hmem, _⟩ := matchPattern_sound _ _ _ _ hm
      cases cap with
      | nil => exact absurd rfl hne
      | cons c0 rest =>
        rw [List.all_cons, Bool.and_eq_true] at hall
        have := hno c0 (hmem c0 (List.mem_cons_self c0 rest))
        rw [this] at hall
        exact absurd hall.1 (by simp)
  rw [extractSessionId]
  dsimp only
  rw [key, key, key, key]

/-- C10: every id `extractSessionId` returns is a nonempty string of
hexadecimal digits and dashes (case-insensitively) coming from a
filename ending in `.json` (case-insensitively, since all four patterns
carry that anchored tail); a filename containing no such character
yields `none` (in particular, a filename whose stem has none does,
because the characters of `.json` are outside the class); hence a
session id containing any other character — letters `g`–`z`, say — is
never extracted, even though `TodoWatcher.isSessionTodoFile` happily
matches such a session to a file by plain substring containment, as the
`sg1` example in the last conjunct shows (the fallback pattern extracts
`"1"`, not `"sg1"`). -/
theorem c10_extract_hex_only (path : String) :
    (∀ id, extractSessionId path = some id →
      id ≠ "" ∧ id.data.all hexDashChar = true ∧
        ciEndsWith ".json".data (basenameOf path).data = true)
  ∧ ((∀ c ∈ (basenameOf path).data, hexDashChar c = false) →
      extractSessionId path = none)
  ∧ (∀ sid c, c ∈ sid.data → hexDashChar c = false →
      extractSessionId path ≠ some sid)
  ∧ (isSessionTodoFile "todos-sg1.json" "sg1" = true ∧
      extractSessionId "todos-sg1.json" = some "1") := by
  refine ⟨fun id h => extract_sound path id h, extract_none_of_no_hex path,
    ?_, rfl, rfl⟩
  intro sid c hc hfalse heq
  obtain ⟨_, hall, _⟩ := extract_sound path sid heq
  rw [List.all_eq_true] at hall
  rw [hall c hc] at hfalse
  exact Bool.true_eq_false.mp hfalse

/-- C10 witness: the soundness conjuncts evaluated on two concrete
filenames. -/
theorem c10_extract_hex_only_witness :
    (("abc" : String) ≠ "" ∧ "abc".data.all hexDashChar = true ∧
      ciEndsWith ".json".data (basenameOf "todos-abc.json").data = true)
  ∧ extractSessionId "zzz.json" = none
  ∧ extractSessionId "todos-abc.json" ≠ some "sgz" :=
  ⟨(c10_extract_hex_only "todos-abc.json").1 "abc" rfl,
   (c10_extract_hex_only "zzz.json").2.1 (by decide),
   (c10_extract_hex_only "todos-abc.json").2.2.1 "sgz" 'z' (by decide)
     (by decide)⟩

/-- C8: when parsing path `P` fails for any reason (missing file,
bytes that `JSON.parse` rejects, or a `TypeError` inside the
transform), the parse step leaves the whole manager state — in
particular the cache entry for `P` and every other entry — untouched
and emits exactly one error-tagged ChangeEvent, correlated to
`extractSessionId(P)` when that yields an id and otherwise to the
active session id; the step is a total function, so no exception
escapes the engine. -/
theorem c8_parse_failure (fs : List (String × FileData)) (p : String)
    (st : ManagerState) (hfail : parseTodoFileFS fs p = none) :
    (parseFileStep fs p st).1 = st
  ∧ (parseFileStep fs p st).2 =
      [{ type := .updated, sessionId := errorSessionId p st,
         todoList := none, error := true }]
  ∧ (∀ s, extractSessionId p = some s → s ≠ "" → errorSessionId p st = s)
  ∧ (extractSessionId p = none → ∀ c, st.currentSessionId = some c →
      c ≠ "" → errorSessionId p st = c) := by
  refine ⟨?_, ?_, ?_, ?_⟩
  · rw [parseFileStep, hfail]
  · rw [parseFileStep, hfail]
  · intro s hs hne
    have hie : s.isEmpty = false := by
      rw [Bool.eq_false_iff]
      intro hc
      exact hne ((String.isEmpty_iff s).mp hc)
    rw [errorSessionId, hs]
    dsimp only
    rw [hie]
    simp
  · intro hnone c hc hcne
    have hie : c.isEmpty = false := by
      rw [Bool.eq_false_iff]
      intro hcc
      exact hcne ((String.isEmpty_iff c).mp hcc)
    rw [errorSessionId, hnone, hc]
    dsimp only
    rw [hie]
    simp

/-- C8 witness: a concrete failing parse (absent file) in a state with
an active session. -/
theorem c8_parse_failure_witness :
    (parseFileStep [] "todos-abc.json"
        { initialState with currentSessionId := some "sess" }).1 =
      { initialState with currentSessionId := some "sess" }
  ∧ (parseFileStep [] "todos-abc.json"
        { initialState with currentSessionId := some "sess" }).2 =
      [{ type := .updated, sessionId := errorSessionId "todos-abc.json"
          { initialState with currentSessionId := some "sess" },
         todoList := none, error := true }]
  ∧ errorSessionId "todos-abc.json"
      { initialState with currentSessionId := some "sess" } = "abc" :=
  ⟨(c8_parse_failure [] "todos-abc.json" _ rfl).1,
   (c8_parse_failure [] "todos-abc.json" _ rfl).2.1,
   (c8_parse_failure [] "todos-abc.json" _ rfl).2.2.1 "abc" rfl
     (by decide)⟩

theorem groupByStatus_eq_filters (todos : List TodoItem) :
    groupByStatus todos =
      (todos.filter (fun t => t.status == .pending),
       todos.filter (fun t => t.status == .in_progress),
       todos.filter (fun t => t.status == .completed)) := by
  have go : ∀ (l : List TodoItem) (p i c : List TodoItem),
      l.foldl
        (fun acc t =>
          match t.status with
          | .pending => (acc.1 ++ [t], acc.2.1, acc.2.2)
          | .in_progress => (acc.1, acc.2.1 ++ [t], acc.2.2)
          | .completed => (acc.1, acc.2.1, acc.2.2 ++ [t])) (p, i, c) =
        (p ++ l.filter (fun t => t.status == .pending),
         i ++ l.filter (fun t => t.status == .in_progress),
         c ++ l.filter (fun t => t.status == .completed)) := by
    intro l
    induction l with
    | nil =>
      intro p i c
      simp
    | cons t rest ih =>
      intro p i c
      rw [List.foldl_cons]
      dsimp only
      rcases ht : t.status with _ | _ | _ <;>
        simp [List.filter_cons, ht, ih, List.append_assoc]
  have base := go todos [] [] []
  simpa [groupByStatus] using base

/-- C9 counterexample: a cache with one list holding two pending items
— low-priority content `b` first, high-priority content `a` second —
renders the pending group in the original file order (`b` before `a`),
so the items do not appear sorted by priority high-to-low (nor with
content ties broken lexically); the spec's claimed ordering fails on
the code's output. -/
theorem c9_counterexample :
    exportAsMarkdown
      { currentSessionId := none
        watcherSession := none
        watcherActive := false
        todoCache :=
          [("todos-s.json",
            { sessionId := "s"
              todos :=
                [{ id := "0", content := .str "b", status := .pending,
                   priority := .low },
                 { id := "1", content := .str "a", status := .pending,
                   priority := .high }]
              filePath := "todos-s.json"
              lastUpdated := 0 })]
        parseDebounceTimers := [] } =
      "# Claude Pilot Todos\n\n## Session: s\n\n### Pending\n\n- [ ] b\n- [ ] a ⚠️\n"
  ∧ ¬ specPrioritySorted
      ((groupByStatus
        [{ id := "0", content := .str "b", status := .pending,
           priority := .low },
         { id := "1", content := .str "a", status := .pending,
           priority := .high }]).1) := by
  constructor
  · rfl
  · intro h
    rw [specPrioritySorted] at h
    have := List.rel_of_pairwise_cons h (List.mem_singleton.mpr rfl)
    rcases this with hlt | ⟨heq, _⟩
    · exact absurd hlt (by decide)
    · exact absurd heq (by decide)

/-- C9 amended: the markdown export groups each cached list by status
with items in the list's original order — each group is exactly the
status filter of the list, no priority or content sorting — while the
plain-text export renders items in original order with status/priority
tags; both exports read only the cache (they are pure functions of it
and leave the manager state untouched). -/
theorem c9_export_order (todos : List TodoItem) (st st' : ManagerState)
    (hc : st.todoCache = st'.todoCache) :
    groupByStatus todos =
      (todos.filter (fun t => t.status == .pending),
       todos.filter (fun t => t.status == .in_progress),
       todos.filter (fun t => t.status == .completed))
  ∧ exportAsMarkdown st = exportAsMarkdown st'
  ∧ exportAsPlainText st = exportAsPlainText st' := by
  refine ⟨groupByStatus_eq_filters todos, ?_, ?_⟩
  · rw [exportAsMarkdown, exportAsMarkdown, getCurrentTodos, getCurrentTodos,
      hc]
  · rw [exportAsPlainText, exportAsPlainText, getCurrentTodos,
      getCurrentTodos, hc]

/-- C9 witness: the amended ordering property evaluated on a concrete
list and two states sharing a cache. -/
theorem c9_export_order_witness :
    groupByStatus
        [{ id := "0", content := .str "b", status := .completed,
           priority := .low },
         { id := "1", content := .str "a", status := .pending,
           priority := .high }] =
      ([{ id := "1", content := .str "a", status := .pending,
          priority := .high }], [],
       [{ id := "0", content := .str "b", status := .completed,
          priority := .low }])
  ∧ exportAsMarkdown
      { currentSessionId := some "x"
        watcherSession := none
        watcherActive := false
        todoCache := []
        parseDebounceTimers := [("q", 7)] } =
    exportAsMarkdown initialState :=
  ⟨(c9_export_order _
      { currentSessionId := some "x"
        watcherSession := none
        watcherActive := false
        todoCache := []
        parseDebounceTimers := [("q", 7)] } initialState rfl).1,
   (c9_export_order
      [{ id := "0", content := .str "b", status := .completed,
         priority := .low }]
      { currentSessionId := some "x"
        watcherSession := none
        watcherActive := false
        todoCache := []
        parseDebounceTimers := [("q", 7)] } initialState rfl).2.1⟩

theorem assocGet_assocSet {α : Type} (m : List (String × α)) (k : String)
    (v : α) (q : String) :
    assocGet (assocSet m k v) q = if k = q then some v else assocGet m q := by
  induction m with
  | nil =>
    simp only [assocSet, assocGet]
  | cons e rest ih =>
    obtain ⟨k', v'⟩ := e
    by_cases hk : k' = k
    · subst hk
      simp only [assocSet, if_pos rfl, assocGet]
      split_ifs <;> rfl
    · simp only [assocSet, if_neg hk, assocGet, ih]
      by_cases h1 : k' = q
      · by_cases h2 : k = q
        · exact absurd (h1.trans h2.symm) hk
        · rw [if_pos h1, if_neg h2, if_pos h1]
      · by_cases h2 : k = q
        · rw [if_neg h1, if_pos h2, if_pos h2]
        · rw [if_neg h1, if_neg h2, if_neg h2, if_neg h1]

theorem parseFileStep_frame (fs : List (String × FileData)) (p : String)
    (st : ManagerState) :
    (parseFileStep fs p st).1.currentSessionId = st.currentSessionId
  ∧ (parseFileStep fs p st).1.watcherSession = st.watcherSession
  ∧ (parseFileStep fs p st).1.watcherActive = st.watcherActive
  ∧ (parseFileStep fs p st).1.parseDebounceTimers =
      st.parseDebounceTimers := by
  rw [parseFileStep]
  rcases parseTodoFileFS fs p with _ | tl <;> exact ⟨rfl, rfl, rfl, rfl⟩

theorem parseFilesFold_frame (fs : List (String × FileData))
    (ps : List String) :
    ∀ st : ManagerState,
      (parseFilesFold fs ps st).1.currentSessionId = st.currentSessionId
    ∧ (parseFilesFold fs ps st).1.watcherSession = st.watcherSession
    ∧ (parseFilesFold fs ps st).1.watcherActive = st.watcherActive
    ∧ (parseFilesFold fs ps st).1.parseDebounceTimers =
        st.parseDebounceTimers := by
  induction ps with
  | nil => intro st; exact ⟨rfl, rfl, rfl, rfl⟩
  | cons p rest ih =>
    intro st
    obtain ⟨h1, h2, h3, h4⟩ := parseFileStep_frame fs p st
    obtain ⟨g1, g2, g3, g4⟩ := ih (parseFileStep fs p st).1
    rw [parseFilesFold]
    dsimp only
    exact ⟨g1.trans h1, g2.trans h2, g3.trans h3, g4.trans h4⟩

theorem parseFileStep_cache_congr (fs : List (String × FileData))
    (p : String) (st st' : ManagerState)
    (hc : st.todoCache = st'.todoCache) :
    (parseFileStep fs p st).1.todoCache =
      (parseFileStep fs p st').1.todoCache := by
  rw [parseFileStep, parseFileStep]
  rcases parseTodoFileFS fs p with _ | tl
  · exact hc
  · dsimp only
    rw [hc]

theorem parseFilesFold_cache_congr (fs : List (String × FileData))
    (ps : List String) :
    ∀ st st' : ManagerState, st.todoCache = st'.todoCache →
      (parseFilesFold fs ps st).1.todoCache =
        (parseFilesFold fs ps st').1.todoCache := by
  induction ps with
  | nil => intro st st' hc; exact hc
  | cons p rest ih =>
    intro st st' hc
    rw [parseFilesFold, parseFilesFold]
    dsimp only
    exact ih _ _ (parseFileStep_cache_congr fs p st st' hc)

theorem armTimersList_frame (now : Nat) (ps : List String) :
    ∀ st : ManagerState,
      (armTimersList now ps st).currentSessionId = st.currentSessionId
    ∧ (armTimersList now ps st).watcherSession = st.watcherSession
    ∧ (armTimersList now ps st).watcherActive = st.watcherActive
    ∧ (armTimersList now ps st).todoCache = st.todoCache := by
  induction ps with
  | nil => intro st; exact ⟨rfl, rfl, rfl, rfl⟩
  | cons p rest ih =>
    intro st
    obtain ⟨g1, g2, g3, g4⟩ := ih (debouncedParseTodoFile now p st)
    exact ⟨g1, g2, g3, g4⟩

theorem armTimersList_pending (now : Nat) (ps : List String) :
    ∀ (st : ManagerState) (q : String),
      assocGet st.parseDebounceTimers q ≠ none →
      assocGet (armTimersList now ps st).parseDebounceTimers q ≠ none := by
  induction ps with
  | nil => intro st q h; exact h
  | cons p rest ih =>
    intro st q h
    rw [armTimersList]
    apply ih
    rw [debouncedParseTodoFile]
    dsimp only
    rw [assocGet_assocSet]
    by_cases hq : p = q <;> simp [hq, h]

theorem loadExisting_frame (fs : List (String × FileData))
    (st : ManagerState) :
    (loadExistingTodos fs st).1.currentSessionId = st.currentSessionId
  ∧ (loadExistingTodos fs st).1.watcherSession = st.watcherSession
  ∧ (loadExistingTodos fs st).1.watcherActive = st.watcherActive
  ∧ (loadExistingTodos fs st).1.parseDebounceTimers =
      st.parseDebounceTimers := by
  rw [loadExistingTodos]
  rcases hcur : st.currentSessionId with _ | sid
  · exact ⟨hcur, rfl, rfl, rfl⟩
  · dsimp only
    obtain ⟨f1, f2, f3, f4⟩ :=
      parseFilesFold_frame fs (getCurrentSessionFiles fs st) st
    exact ⟨f1.trans hcur, f2, f3, f4⟩

theorem loadExisting_cache_congr (fs : List (String × FileData))
    (st st' : ManagerState)
    (hcur : st.currentSessionId = st'.currentSessionId)
    (hw : st.watcherSession = st'.watcherSession)
    (hc : st.todoCache = st'.todoCache) :
    (loadExistingTodos fs st).1.todoCache =
      (loadExistingTodos fs st').1.todoCache := by
  rw [loadExistingTodos, loadExistingTodos, ← hcur]
  rcases hc2 : st.currentSessionId with _ | sid
  · exact hc
  · dsimp only
    have hfiles : getCurrentSessionFiles fs st = getCurrentSessionFiles fs st' := by
      rw [getCurrentSessionFiles, getCurrentSessionFiles, hw]
    rw [hfiles]
    exact parseFilesFold_cache_congr fs _ st st' hc

/-- C4 counterexample: with a matching file on disk, start session
`aaa`, receive one more watcher update for its file, then call
`startSession("bbb")`: immediately afterwards the table of pending
debounce timers is not empty — the timer armed while `aaa` was active
(re-armed at 10 ms, firing at 310 ms) survives, because `startSession`
never touches `parseDebounceTimers`.  This refutes the claimed
postcondition that every previously pending timer has been
cancelled. -/
theorem c4_counterexample :
    ((stepInput [("todos-aaa.json", FileData.content (.arr [.str "x"]) 0)]
        20 (.startSess "bbb")
        ((stepInput [("todos-aaa.json", FileData.content (.arr [.str "x"]) 0)]
            10 (.fileEvent .updated "todos-aaa.json")
            ((stepInput [("todos-aaa.json",
                FileData.content (.arr [.str "x"]) 0)]
                0 (.startSess "aaa") initialState).1)).1)).1).parseDebounceTimers =
      [("todos-aaa.json", 310)] := by
  decide

/-- C4 amended: immediately after `startSession(id)` the active session
is `id`, the watcher is started for `id`, and the cache holds exactly
the result of the initial parse of the pre-existing matching files
(independent of any prior cache contents, which are cleared first) —
but pending debounce timers are NOT cancelled: every previously pending
timer is still pending (only `stopSession` clears the timer table). -/
theorem c4_startSession_post (fs : List (String × FileData)) (now : Nat)
    (sid : String) (st : ManagerState) :
    (startSessionM fs now sid st).1.currentSessionId = some sid
  ∧ (startSessionM fs now sid st).1.watcherSession = some sid
  ∧ (startSessionM fs now sid st).1.watcherActive = true
  ∧ (startSessionM fs now sid st).1.todoCache =
      (startSessionM fs now sid initialState).1.todoCache
  ∧ (∀ q, assocGet st.parseDebounceTimers q ≠ none →
      assocGet (startSessionM fs now sid st).1.parseDebounceTimers q ≠
        none) := by
  have hred : ∀ s : ManagerState, startSessionM fs now sid s =
      loadExistingTodos fs (armTimersList now
        (getCurrentSessionFiles fs
          { s with currentSessionId := some sid, todoCache := [],
                   watcherSession := some sid, watcherActive := true })
        { s with currentSessionId := some sid, todoCache := [],
                 watcherSession := some sid, watcherActive := true }) := by
    intro s
    rfl
  rw [hred st, hred initialState]
  obtain ⟨lf1, lf2, lf3, lf4⟩ := loadExisting_frame fs
    (armTimersList now
      (getCurrentSessionFiles fs
        { st with currentSessionId := some sid, todoCache := [],
                  watcherSession := some sid, watcherActive := true })
      { st with currentSessionId := some sid, todoCache := [],
                watcherSession := some sid, watcherActive := true })
  obtain ⟨af1, af2, af3, af4⟩ := armTimersList_frame now
    (getCurrentSessionFiles fs
      { st with currentSessionId := some sid, todoCache := [],
                watcherSession := some sid, watcherActive := true })
    { st with currentSessionId := some sid, todoCache := [],
              watcherSession := some sid, watcherActive := true }
  refine ⟨lf1.trans af1, lf2.trans af2, lf3.trans af3, ?_, ?_⟩
  · apply loadExisting_cache_congr
    · obtain ⟨bf1, _, _, _⟩ := armTimersList_frame now
        (getCurrentSessionFiles fs
          { initialState with currentSessionId := some sid,
                              todoCache := [],
                              watcherSession := some sid,
                              watcherActive := true })
        { initialState with currentSessionId := some sid,
                            todoCache := [], watcherSession := some sid,
                            watcherActive := true }
      exact (af1.trans (bf1.symm ▸ rfl)).trans bf1.symm
    · obtain ⟨_, bf2, _, _⟩ := armTimersList_frame now
        (getCurrentSessionFiles fs
          { initialState with currentSessionId := some sid,
                              todoCache := [],
                              watcherSession := some sid,
                              watcherActive := true })
        { initialState with currentSessionId := some sid,
                            todoCache := [], watcherSession := some sid,
                            watcherActive := true }
      exact af2.trans bf2.symm
    · obtain ⟨_, _, _, bf4⟩ := armTimersList_frame now
        (getCurrentSessionFiles fs
          { initialState with currentSessionId := some sid,
                              todoCache := [],
                              watcherSession := some sid,
                              watcherActive := true })
        { initialState with currentSessionId := some sid,
                            todoCache := [], watcherSession := some sid,
                            watcherActive := true }
      exact af4.trans bf4.symm
  · intro q hq
    rw [lf4]
    exact armTimersList_pending now _ _ q hq

/-- C4 witness: a pending timer for `p0` is still pending right after
a concrete `startSession`. -/
theorem c4_startSession_post_witness :
    assocGet (startSessionM [] 5 "b"
        { initialState with
          parseDebounceTimers := [("p0", 100)] }).1.parseDebounceTimers
      "p0" ≠ none :=
  (c4_startSession_post [] 5 "b"
    { initialState with parseDebounceTimers := [("p0", 100)] }).2.2.2.2
    "p0" (by decide)

theorem parseFileStep_events_len (fs : List (String × FileData))
    (p : String) (st : ManagerState) :
    (parseFileStep fs p st).2.length = 1 := by
  rw [parseFileStep]
  rcases parseTodoFileFS fs p with _ | tl <;> rfl

theorem parseFileStep_events_congr (fs : List (String × FileData))
    (p : String) (st st' : ManagerState)
    (hc : st.todoCache = st'.todoCache)
    (hcur : st.currentSessionId = st'.currentSessionId) :
    (parseFileStep fs p st).2 = (parseFileStep fs p st').2 := by
  rw [parseFileStep, parseFileStep]
  rcases parseTodoFileFS fs p with _ | tl
  · dsimp only
    rw [errorSessionId, errorSessionId, hcur]
  · dsimp only
    rw [hc]

theorem stepInput_arm (fs : List (String × FileData)) (t : Nat)
    (e : InEvent) (st : ManagerState) (P : String)
    (h : isArmEventFor P (t, e) = true) :
    stepInput fs t e st = (debouncedParseTodoFile t P st, []) := by
  cases e with
  | fileEvent k p =>
    cases k with
    | created =>
      simp only [isArmEventFor, beq_iff_eq] at h
      subst h
      rfl
    | updated =>
      simp only [isArmEventFor, beq_iff_eq] at h
      subst h
      rfl
    | deleted => simp [isArmEventFor] at h
  | startSess sid => simp [isArmEventFor] at h
  | stopSess => simp [isArmEventFor] at h

theorem fireDue_nil_timers (fs : List (String × FileData))
    (cutoff : Option Nat) (fuel : Nat) (st : ManagerState)
    (h : st.parseDebounceTimers = []) :
    fireDue fs cutoff fuel st = (st, []) := by
  cases fuel with
  | zero => rfl
  | succ n =>
    rw [fireDue, h]
    rfl

theorem fireDue_not_due (fs : List (String × FileData)) (t : Nat)
    (fuel : Nat) (st : ManagerState) (P : String) (d : Nat)
    (h : st.parseDebounceTimers = [(P, d)]) (hle : t ≤ d) :
    fireDue fs (some t) fuel st = (st, []) := by
  cases fuel with
  | zero => rfl
  | succ n =>
    rw [fireDue, h]
    have : minDeadline [(P, d)] = some (P, d) := rfl
    rw [this]
    dsimp only
    have hd : decide (d < t) = false := by
      rw [decide_eq_false_iff_not]
      exact Nat.not_lt.mpr hle
    rw [hd]
    rfl

theorem runInputs_nil_single (fs : List (String × FileData))
    (st : ManagerState) (P : String) (d : Nat)
    (h : st.parseDebounceTimers = [(P, d)]) :
    (runInputs fs [] st).2 =
      (parseFileStep fs P { st with parseDebounceTimers := [] }).2.map
        (fun e => (d, e)) := by
  rw [runInputs, h]
  have hfuel : ([(P, d)] : List (String × Nat)).length = 1 := rfl
  rw [hfuel, fireDue, h]
  have hmin : minDeadline [(P, d)] = some (P, d) := rfl
  rw [hmin]
  dsimp only [fireTimer]
  have hdel : assocDel st.parseDebounceTimers P = [] := by
    rw [h, assocDel, if_pos rfl]
  rw [hdel]
  have hfire2 : fireDue fs none 0
      (parseFileStep fs P { st with parseDebounceTimers := [] }).1 =
      ((parseFileStep fs P { st with parseDebounceTimers := [] }).1, []) :=
    rfl
  rw [hfire2]
  simp

theorem c2_aux (fs : List (String × FileData)) (P : String) :
    ∀ (rest : List (Nat × InEvent)) (t : Nat) (e : InEvent)
      (st : ManagerState) (d : Nat),
      ((t, e) :: rest).all (isArmEventFor P) = true →
      rapidTimes ((t, e) :: rest) = true →
      st.parseDebounceTimers = [(P, d)] →
      t < d →
      (runInputs fs ((t, e) :: rest) st).2 =
        (parseFileStep fs P { st with parseDebounceTimers := [] }).2.map
          (fun ev => (lastTime ((t, e) :: rest) + DEBOUNCE_DELAY, ev)) := by
  intro rest
  induction rest with
  | nil =>
    intro t e st d harm hrapid htim hlt
    rw [List.all_cons, Bool.and_eq_true] at harm
    obtain ⟨ha, _⟩ := harm
    rw [runInputs]
    dsimp only
    rw [fireDue_not_due fs t _ st P d htim (Nat.le_of_lt hlt)]
    rw [stepInput_arm fs t e st P ha]
    dsimp only
    have htim' : (debouncedParseTodoFile t P st).parseDebounceTimers =
        [(P, t + DEBOUNCE_DELAY)] := by
      rw [debouncedParseTodoFile]
      dsimp only
      rw [htim, assocSet, if_pos rfl]
    rw [runInputs_nil_single fs _ P (t + DEBOUNCE_DELAY) htim']
    have hev : (parseFileStep fs P
        { debouncedParseTodoFile t P st with parseDebounceTimers := [] }).2 =
        (parseFileStep fs P { st with parseDebounceTimers := [] }).2 :=
      parseFileStep_events_congr fs P _ _ rfl rfl
    rw [hev]
    simp [lastTime]
  | cons te2 rest' ih =>
    obtain ⟨t2, e2⟩ := te2
    intro t e st d harm hrapid htim hlt
    rw [List.all_cons, Bool.and_eq_true] at harm
    obtain ⟨ha, harm'⟩ := harm
    rw [rapidTimes] at hrapid
    simp only [Bool.and_eq_true, decide_eq_true_eq] at hrapid
    obtain ⟨⟨hlt12, hwin⟩, hrapid'⟩ := hrapid
    rw [runInputs]
    dsimp only
    rw [fireDue_not_due fs t _ st P d htim (Nat.le_of_lt hlt)]
    rw [stepInput_arm fs t e st P ha]
    dsimp only
    have htim' : (debouncedParseTodoFile t P st).parseDebounceTimers =
        [(P, t + DEBOUNCE_DELAY)] := by
      rw [debouncedParseTodoFile]
      dsimp only
      rw [htim, assocSet, if_pos rfl]
    have hrec := ih t2 e2 (debouncedParseTodoFile t P st)
      (t + DEBOUNCE_DELAY) harm' hrapid' htim' hwin
    rw [hrec]
    have hev : (parseFileStep fs P
        { debouncedParseTodoFile t P st with parseDebounceTimers := [] }).2 =
        (parseFileStep fs P { st with parseDebounceTimers := [] }).2 :=
      parseFileStep_events_congr fs P _ _ rfl rfl
    rw [hev]
    simp [lastTime]

/-- C2: debounce idempotence — starting from a state with no pending
timer, any nonempty run of created/updated watcher events for the same
path `P`, consecutive events separated by less than the 300 ms quiet
window, schedules exactly one parse: nothing fires before or between
the inputs (each event replaces the pending timer), and after the run
exactly one ChangeEvent is emitted, at `lastTime + 300`, equal to the
single event the parse of `P` produces in the original state. -/
theorem c2_debounce_once (fs : List (String × FileData)) (P : String)
    (st : ManagerState) (inputs : List (Nat × InEvent))
    (hne : inputs ≠ [])
    (harm : inputs.all (isArmEventFor P) = true)
    (hrapid : rapidTimes inputs = true)
    (htimers : st.parseDebounceTimers = []) :
    (runInputs fs inputs st).2 =
      (parseFileStep fs P st).2.map
        (fun e => (lastTime inputs + DEBOUNCE_DELAY, e))
  ∧ (parseFileStep fs P st).2.length = 1 := by
  refine ⟨?_, parseFileStep_events_len fs P st⟩
  cases inputs with
  | nil => exact absurd rfl hne
  | cons te rest =>
    obtain ⟨t, e⟩ := te
    rw [List.all_cons, Bool.and_eq_true] at harm
    obtain ⟨ha, harm'⟩ := harm
    rw [runInputs]
    dsimp only
    rw [fireDue_nil_timers fs (some t) _ st htimers]
    rw [stepInput_arm fs t e st P ha]
    dsimp only
    have htim' : (debouncedParseTodoFile t P st).parseDebounceTimers =
        [(P, t + DEBOUNCE_DELAY)] := by
      rw [debouncedParseTodoFile]
      dsimp only
      rw [htimers]
      rfl
    cases rest with
    | nil =>
      rw [runInputs_nil_single fs _ P (t + DEBOUNCE_DELAY) htim']
      have hev : (parseFileStep fs P
          { debouncedParseTodoFile t P st with
            parseDebounceTimers := [] }).2 =
          (parseFileStep fs P st).2 :=
        parseFileStep_events_congr fs P _ _ rfl rfl
      rw [hev]
      simp [lastTime]
    | cons te2 rest' =>
      obtain ⟨t2, e2⟩ := te2
      rw [rapidTimes] at hrapid
      simp only [Bool.and_eq_true, decide_eq_true_eq] at hrapid
      obtain ⟨⟨hlt12, hwin⟩, hrapid'⟩ := hrapid
      have hrec := c2_aux fs P rest' t2 e2 (debouncedParseTodoFile t P st)
        (t + DEBOUNCE_DELAY) harm' hrapid' htim' hwin
      rw [hrec]
      have hev : (parseFileStep fs P
          { debouncedParseTodoFile t P st with
            parseDebounceTimers := [] }).2 =
          (parseFileStep fs P st).2 :=
        parseFileStep_events_congr fs P _ _ rfl rfl
      rw [hev]
      simp [lastTime]

/-- C2 witness: two rapid updates of one path from a quiescent state
produce exactly the single parse event, stamped 400 ms (= 100 + quiet
window). -/
theorem c2_debounce_once_witness :
    (runInputs [] [(0, .fileEvent .updated "p"),
        (100, .fileEvent .created "p")] initialState).2 =
      (parseFileStep [] "p" initialState).2.map (fun e => (400, e))
  ∧ (parseFileStep [] "p" initialState).2.length = 1 := by
  have h := c2_debounce_once [] "p" initialState
    [(0, .fileEvent .updated "p"), (100, .fileEvent .created "p")]
    (by decide) (by decide) (by decide) rfl
  exact h

theorem mem_assocSet {α : Type} (m : List (String × α)) (k : String)
    (v : α) (e : String × α) (h : e ∈ assocSet m k v) :
    e ∈ m ∨ e = (k, v) := by
  induction m with
  | nil =>
    rw [assocSet, List.mem_singleton] at h
    exact Or.inr h
  | cons e' rest ih =>
    obtain ⟨k', v'⟩ := e'
    rw [assocSet] at h
    split at h
    · rcases List.mem_cons.mp h with heq | hmem
      · exact Or.inr heq
      · exact Or.inl (List.mem_cons_of_mem _ hmem)
    · rcases List.mem_cons.mp h with heq | hmem
      · exact Or.inl (heq ▸ List.mem_cons_self _ _)
      · rcases ih hmem with hl | hr
        · exact Or.inl (List.mem_cons_of_mem _ hl)
        · exact Or.inr hr

theorem mem_assocDel {α : Type} (m : List (String × α)) (k : String)
    (e : String × α) (h : e ∈ assocDel m k) : e ∈ m := by
  induction m with
  | nil => exact absurd h (List.not_mem_nil e)
  | cons e' rest ih =>
    obtain ⟨k', v'⟩ := e'
    rw [assocDel] at h
    split at h
    · exact List.mem_cons_of_mem _ h
    · rcases List.mem_cons.mp h with heq | hmem
      · exact heq ▸ List.mem_cons_self _ _
      · exact List.mem_cons_of_mem _ (ih hmem)

theorem minDeadline_mem (m : List (String × Nat)) (p : String) (d : Nat)
    (h : minDeadline m = some (p, d)) : (p, d) ∈ m := by
  induction m generalizing p d with
  | nil => cases h
  | cons e rest ih =>
    obtain ⟨p', d'⟩ := e
    rw [minDeadline] at h
    rcases hm : minDeadline rest with _ | e2
    · rw [hm] at h
      rw [Option.some.injEq] at h
      rw [← h]
      exact List.mem_cons_self _ _
    · obtain ⟨p2, d2⟩ := e2
      rw [hm] at h
      dsimp only at h
      split at h
      · rw [Option.some.injEq] at h
        rw [← h]
        exact List.mem_cons_self _ _
      · rw [Option.some.injEq] at h
        rw [h] at hm
        exact List.mem_cons_of_mem _ (ih _ _ hm)

theorem fsLookup_mem (fs : List (String × FileData)) (p : String)
    (d : FileData) (h : fsLookup fs p = some d) : (p, d) ∈ fs := by
  induction fs with
  | nil => cases h
  | cons e rest ih =>
    obtain ⟨p', d'⟩ := e
    rw [fsLookup] at h
    split at h
    · next heq =>
      rw [Option.some.injEq] at h
      rw [← heq, ← h]
      exact List.mem_cons_self _ _
    · exact List.mem_cons_of_mem _ (ih h)

theorem validateAndTransform_sessionId (j : Json) (p : String) (m : Nat)
    (tl : TodoList) (h : validateAndTransform j p m = .ok tl) :
    tl.sessionId = sessionIdOfPath p := by
  rw [validateAndTransform] at h
  simp only [bind, Except.bind] at h
  split at h
  · exact absurd h (by simp)
  · rw [Except.ok.injEq] at h
    rw [← h]

theorem parseTodoFileFS_sessionId (fs : List (String × FileData))
    (p : String) (tl : TodoList) (h : parseTodoFileFS fs p = some tl) :
    tl.sessionId = sessionIdOfPath p := by
  rw [parseTodoFileFS] at h
  split at h
  · cases h
  · cases h
  · split at h
    · next tl' hv =>
      rw [Option.some.injEq] at h
      rw [← h]
      exact validateAndTransform_sessionId _ _ _ _ hv
    · cases h

theorem parseTodoFileFS_mem (fs : List (String × FileData)) (p : String)
    (tl : TodoList) (h : parseTodoFileFS fs p = some tl) :
    ∃ d, (p, d) ∈ fs := by
  rw [parseTodoFileFS] at h
  split at h
  · cases h
  · cases h
  · next j m hl => exact ⟨FileData.content j m, fsLookup_mem fs p _ hl⟩

theorem parseFileStep_cacheOK (fs : List (String × FileData)) (p : String)
    (st : ManagerState) (a b : String)
    (H : ∀ pr ∈ fs, isSessionTodoFile (Prod.fst pr) b = true →
      sessionIdOfPath (Prod.fst pr) ≠ a)
    (hp : isSessionTodoFile p b = true)
    (hok : cacheSessionOK a st) :
    cacheSessionOK a (parseFileStep fs p st).1 := by
  rw [parseFileStep]
  rcases hres : parseTodoFileFS fs p with _ | tl
  · exact hok
  · dsimp only
    intro e he
    rcases mem_assocSet st.todoCache p tl e he with hmem | heq
    · exact hok e hmem
    · rw [heq]
      dsimp only
      rw [parseTodoFileFS_sessionId fs p tl hres]
      obtain ⟨d, hd⟩ := parseTodoFileFS_mem fs p tl hres
      exact H (p, d) hd hp

theorem parseFilesFold_inv (fs : List (String × FileData)) (a b : String)
    (H : ∀ pr ∈ fs, isSessionTodoFile (Prod.fst pr) b = true →
      sessionIdOfPath (Prod.fst pr) ≠ a) :
    ∀ (ps : List String) (st : ManagerState),
      (∀ p ∈ ps, isSessionTodoFile p b = true) →
      cacheSessionOK a st → timersMatch b st →
      cacheSessionOK a (parseFilesFold fs ps st).1 ∧
        timersMatch b (parseFilesFold fs ps st).1 := by
  intro ps
  induction ps with
  | nil =>
    intro st _ hc htm
    exact ⟨hc, htm⟩
  | cons p rest ih =>
    intro st hps hc htm
    rw [parseFilesFold]
    dsimp only
    apply ih
    · intro q hq
      exact hps q (List.mem_cons_of_mem _ hq)
    · exact parseFileStep_cacheOK fs p st a b H
        (hps p (List.mem_cons_self _ _)) hc
    · intro e he
      rw [(parseFileStep_frame fs p st).2.2.2] at he
      exact htm e he

theorem armTimersList_timersMatch (now : Nat) (b : String) :
    ∀ (ps : List String) (st : ManagerState),
      (∀ p ∈ ps, isSessionTodoFile p b = true) → timersMatch b st →
      timersMatch b (armTimersList now ps st) := by
  intro ps
  induction ps with
  | nil =>
    intro st _ h
    exact h
  | cons p rest ih =>
    intro st hps htm
    rw [armTimersList]
    apply ih
    · intro q hq
      exact hps q (List.mem_cons_of_mem _ hq)
    · intro e he
      rw [debouncedParseTodoFile] at he
      dsimp only at he
      rcases mem_assocSet _ _ _ e he with hmem | heq
      · exact htm e hmem
      · rw [heq]
        exact hps p (List.mem_cons_self _ _)

theorem getCurrentSessionFiles_match (fs : List (String × FileData))
    (st : ManagerState) (b : String) (hw : st.watcherSession = some b) :
    ∀ p ∈ getCurrentSessionFiles fs st, isSessionTodoFile p b = true := by
  intro p hp
  rw [getCurrentSessionFiles, hw] at hp
  exact (List.mem_filter.mp hp).2

theorem fireTimer_inv (fs : List (String × FileData)) (a b p : String)
    (st : ManagerState)
    (H : ∀ pr ∈ fs, isSessionTodoFile (Prod.fst pr) b = true →
      sessionIdOfPath (Prod.fst pr) ≠ a)
    (hp : isSessionTodoFile p b = true)
    (hc : cacheSessionOK a st) (htm : timersMatch b st) :
    cacheSessionOK a (fireTimer fs p st).1 ∧
      timersMatch b (fireTimer fs p st).1 := by
  rw [fireTimer]
  constructor
  · apply parseFileStep_cacheOK fs p _ a b H hp
    intro e he
    exact hc e he
  · intro e he
    rw [(parseFileStep_frame fs p _).2.2.2] at he
    exact htm e (mem_assocDel _ _ _ he)

theorem fireDue_inv (fs : List (String × FileData)) (a b : String)
    (cutoff : Option Nat)
    (H : ∀ pr ∈ fs, isSessionTodoFile (Prod.fst pr) b = true →
      sessionIdOfPath (Prod.fst pr) ≠ a) :
    ∀ (fuel : Nat) (st : ManagerState),
      cacheSessionOK a st → timersMatch b st →
      cacheSessionOK a (fireDue fs cutoff fuel st).1 ∧
        timersMatch b (fireDue fs cutoff fuel st).1 := by
  intro fuel
  induction fuel with
  | zero =>
    intro st hc htm
    exact ⟨hc, htm⟩
  | succ n ih =>
    intro st hc htm
    rw [fireDue]
    rcases hm : minDeadline st.parseDebounceTimers with _ | pd
    · exact ⟨hc, htm⟩
    · obtain ⟨p, d⟩ := pd
      dsimp only
      split
      · have hp : isSessionTodoFile p b = true :=
          htm (p, d) (minDeadline_mem _ _ _ hm)
        obtain ⟨c1, t1⟩ := fireTimer_inv fs a b p st H hp hc htm
        exact ih _ c1 t1
      · exact ⟨hc, htm⟩

set_option linter.unusedVariables false in
theorem stepInput_inv (fs : List (String × FileData)) (t : Nat)
    (e : InEvent) (st : ManagerState) (a b : String)
    (H : ∀ pr ∈ fs, isSessionTodoFile (Prod.fst pr) b = true →
      sessionIdOfPath (Prod.fst pr) ≠ a)
    (he : watcherEventFor b (t, e) = true)
    (hc : cacheSessionOK a st) (htm : timersMatch b st) :
    cacheSessionOK a (stepInput fs t e st).1 ∧
      timersMatch b (stepInput fs t e st).1 := by
  cases e with
  | fileEvent k p =>
    have hp : isSessionTodoFile p b = true := by
      simpa [watcherEventFor] using he
    cases k with
    | created =>
      refine ⟨hc, ?_⟩
      intro x hx
      rw [stepInput, debouncedParseTodoFile] at hx
      dsimp only at hx
      rcases mem_assocSet _ _ _ x hx with hmem | heq
      · exact htm x hmem
      · rw [heq]
        exact hp
    | updated =>
      refine ⟨hc, ?_⟩
      intro x hx
      rw [stepInput, debouncedParseTodoFile] at hx
      dsimp only at hx
      rcases mem_assocSet _ _ _ x hx with hmem | heq
      · exact htm x hmem
      · rw [heq]
        exact hp
    | deleted =>
      rw [stepInput, handleTodoFileDeleted]
      rcases hg : assocGet st.todoCache p with _ | tl
      · exact ⟨hc, htm⟩
      · dsimp only
        refine ⟨?_, htm⟩
        intro x hx
        exact hc x (mem_assocDel _ _ _ hx)
  | startSess sid => simp [watcherEventFor] at he
  | stopSess => simp [watcherEventFor] at he

theorem runInputs_inv (fs : List (String × FileData)) (a b : String)
    (H : ∀ pr ∈ fs, isSessionTodoFile (Prod.fst pr) b = true →
      sessionIdOfPath (Prod.fst pr) ≠ a) :
    ∀ (inputs : List (Nat × InEvent)) (st : ManagerState),
      inputs.all (watcherEventFor b) = true →
      cacheSessionOK a st → timersMatch b st →
      cacheSessionOK a (runInputs fs inputs st).1 ∧
        timersMatch b (runInputs fs inputs st).1 := by
  intro inputs
  induction inputs with
  | nil =>
    intro st _ hc htm
    rw [runInputs]
    exact fireDue_inv fs a b none H _ st hc htm
  | cons te rest ih =>
    obtain ⟨t, e⟩ := te
    intro st hall hc htm
    rw [List.all_cons, Bool.and_eq_true] at hall
    obtain ⟨he, hall'⟩ := hall
    rw [runInputs]
    dsimp only
    obtain ⟨c1, t1⟩ := fireDue_inv fs a b (some t) H _ st hc htm
    obtain ⟨c2, t2⟩ := stepInput_inv fs t e _ a b H he c1 t1
    exact ih _ hall' c2 t2

theorem getCurrentSessionFiles_congr (fs : List (String × FileData))
    (st st' : ManagerState) (h : st.watcherSession = st'.watcherSession) :
    getCurrentSessionFiles fs st = getCurrentSessionFiles fs st' := by
  rw [getCurrentSessionFiles, getCurrentSessionFiles, h]

theorem startSessionM_inv (fs : List (String × FileData)) (a b : String)
    (t0 : Nat)
    (H : ∀ pr ∈ fs, isSessionTodoFile (Prod.fst pr) b = true →
      sessionIdOfPath (Prod.fst pr) ≠ a)
    (s : ManagerState) (htm0 : s.parseDebounceTimers = []) :
    cacheSessionOK a (startSessionM fs t0 b s).1 ∧
      timersMatch b (startSessionM fs t0 b s).1 := by
  have hred : startSessionM fs t0 b s =
      loadExistingTodos fs (armTimersList t0
        (getCurrentSessionFiles fs
          { s with
            currentSessionId := some b
            todoCache := []
            watcherSession := some b
            watcherActive := true })
        { s with
          currentSessionId := some b
          todoCache := []
          watcherSession := some b
          watcherActive := true }) := rfl
  rw [hred]
  obtain ⟨af1, af2, af3, af4⟩ := armTimersList_frame t0
    (getCurrentSessionFiles fs
      { s with
        currentSessionId := some b
        todoCache := []
        watcherSession := some b
        watcherActive := true })
    { s with
      currentSessionId := some b
      todoCache := []
      watcherSession := some b
      watcherActive := true }
  have af1s : (armTimersList t0
      (getCurrentSessionFiles fs
        { s with
          currentSessionId := some b
          todoCache := []
          watcherSession := some b
          watcherActive := true })
      { s with
        currentSessionId := some b
        todoCache := []
        watcherSession := some b
        watcherActive := true }).currentSessionId = some b := af1.trans rfl
  have af2s : (armTimersList t0
      (getCurrentSessionFiles fs
        { s with
          currentSessionId := some b
          todoCache := []
          watcherSession := some b
          watcherActive := true })
      { s with
        currentSessionId := some b
        todoCache := []
        watcherSession := some b
        watcherActive := true }).watcherSession = some b := af2.trans rfl
  rw [loadExistingTodos, af1s]
  dsimp only
  have hfiles : getCurrentSessionFiles fs (armTimersList t0
      (getCurrentSessionFiles fs
        { s with
          currentSessionId := some b
          todoCache := []
          watcherSession := some b
          watcherActive := true })
      { s with
        currentSessionId := some b
        todoCache := []
        watcherSession := some b
        watcherActive := true }) =
      getCurrentSessionFiles fs
        { s with
          currentSessionId := some b
          todoCache := []
          watcherSession := some b
          watcherActive := true } :=
    getCurrentSessionFiles_congr fs _ _ af2
  apply parseFilesFold_inv fs a b H
  · rw [hfiles]
    exact getCurrentSessionFiles_match fs _ b rfl
  · intro e he
    rw [af4] at he
    exact absurd he (List.not_mem_nil e)
  · apply armTimersList_timersMatch t0 b
    · exact getCurrentSessionFiles_match fs _ b rfl
    · intro e he
      rw [htm0] at he
      exact absurd he (List.not_mem_nil e)

/-- C3 counterexample: session `aaa` starts with its file on disk (a
timer is armed and the file parsed); at 10 ms the watcher reports an
update, re-arming the debounce timer; at 20 ms `startSession("bbb")`
runs — clearing the cache but not the timer; at 310 ms the surviving
timer fires, parses `todos-aaa.json` and re-inserts a TaskList whose
sessionId is `aaa` into the fresh session's cache.  The final cache
carries exactly one entry, with sessionId `aaa` = A, refuting the
claimed isolation. -/
theorem c3_counterexample :
    ((runInputs [("todos-aaa.json", FileData.content (.arr [.str "x"]) 0)]
        [(0, .startSess "aaa"),
         (10, .fileEvent .updated "todos-aaa.json"),
         (20, .startSess "bbb")]
        initialState).1.todoCache.map
          (fun e => e.2.sessionId)) = ["aaa"] := by
  decide

/-- C3 amended: isolation holds only across a `stopSession()`:
after `stopSession()` followed by `startSession(B)` — and provided no
file of the watched directory that matches session B by the watcher's
substring criterion extracts (via the filename patterns, with the
`unknown` fallback) to session id A — no cached TaskList carries
sessionId A, neither immediately after the switch nor in any state
reached by further watcher events for B-matching paths and by debounce
timers firing (all timers pending after the switch belong to B-matching
paths, an invariant the run preserves).  Without the intervening
`stopSession`, a timer armed under A survives `startSession(B)` and
re-inserts a sessionId-A list, as the counterexample shows. -/
theorem c3_session_isolation (fs : List (String × FileData))
    (a b : String) (st : ManagerState) (t0 : Nat)
    (inputs : List (Nat × InEvent))
    (H : ∀ pr ∈ fs, isSessionTodoFile (Prod.fst pr) b = true →
      sessionIdOfPath (Prod.fst pr) ≠ a)
    (hin : inputs.all (watcherEventFor b) = true) :
    cacheSessionOK a (startSessionM fs t0 b (stopSessionM st)).1
  ∧ cacheSessionOK a
      (runInputs fs inputs (startSessionM fs t0 b (stopSessionM st)).1).1 := by
  obtain ⟨hc, htm⟩ := startSessionM_inv fs a b t0 H (stopSessionM st) rfl
  exact ⟨hc, (runInputs_inv fs a b H inputs _ hin hc htm).1⟩

/-- C3 witness: the amended isolation evaluated on a concrete
directory, switch and follow-up event. -/
theorem c3_session_isolation_witness :
    cacheSessionOK "aaa"
      (runInputs [("todos-bbb.json", FileData.content (.arr [.str "x"]) 0)]
        [(50, .fileEvent .updated "todos-bbb.json")]
        (startSessionM [("todos-bbb.json",
            FileData.content (.arr [.str "x"]) 0)] 0 "bbb"
          (stopSessionM initialState)).1).1 :=
  (c3_session_isolation
    [("todos-bbb.json", FileData.content (.arr [.str "x"]) 0)]
    "aaa" "bbb" initialState 0
    [(50, .fileEvent .updated "todos-bbb.json")]
    (by decide) (by decide)).2
